import Mathlib

/-!
Verification development for the game distribution and matchmaking platform
(Catalog Store / Developer Gateway / Lobby-Matchmaker).  The definitions below
are a shallow embedding of the server code: documents are association lists of
scalar values, collections are insertion-ordered key/document lists (Python
dict semantics), and each request handler is translated branch by branch.
-/

namespace GamePlatform

/-- Scalar values stored in Catalog documents and carried in responses.
`nil` models Python `None` / JSON `null`. -/
inductive DBVal where
  | s (v : String)
  | n (v : Int)
  | b (v : Bool)
  | nil
deriving DecidableEq, Repr

/-- A document: a flat JSON object, keys in insertion order (dict semantics,
keys unique in any state the servers build). -/
abbrev Doc := List (String × DBVal)

/-- Lookup in an association list (Python `d[k]` / `d.get(k)`). -/
def dictGet? {κ α : Type} [DecidableEq κ] : List (κ × α) → κ → Option α
  | [], _ => none
  | p :: t, k => if p.1 = k then some p.2 else dictGet? t k

/-- Membership test (Python `k in d`). -/
def dictHas {κ α : Type} [DecidableEq κ] : List (κ × α) → κ → Bool
  | [], _ => false
  | p :: t, k => decide (p.1 = k) || dictHas t k

/-- Dict assignment `d[k] = v`: replaces in place if the key exists (keeping
its position), otherwise appends. -/
def dictSet {κ α : Type} [DecidableEq κ] : List (κ × α) → κ → α → List (κ × α)
  | [], k, v => [(k, v)]
  | p :: t, k, v => if p.1 = k then (k, v) :: t else p :: dictSet t k v

/-- Dict deletion `del d[k]` (removes the unique entry with that key). -/
def dictErase {κ α : Type} [DecidableEq κ] : List (κ × α) → κ → List (κ × α)
  | [], _ => []
  | p :: t, k => if p.1 = k then t else p :: dictErase t k

/-- Python truthiness of a scalar value. -/
def truthy : DBVal → Bool
  | .s v => v != ""
  | .n v => v != 0
  | .b v => v
  | .nil => false

/-- `_match_query`: equality of every query key/value pair against the doc. -/
def match_query (doc query : Doc) : Bool :=
  query.all (fun kv => decide (dictGet? doc kv.1 = some kv.2))

/-- `doc.update(upd)`: assign every pair of `upd` into `doc` in order. -/
def docUpdate (d upd : Doc) : Doc :=
  upd.foldl (fun acc kv => dictSet acc kv.1 kv.2) d

/-- A Catalog collection: id → document, in insertion order. -/
abbrev Collection := List (DBVal × Doc)

/-- The five persistent collections of the Catalog Store. -/
structure DBState where
  user : Collection
  game : Collection
  version : Collection
  room : Collection
  review : Collection
deriving DecidableEq, Repr

/-- The empty Catalog. -/
def DBState.empty : DBState := ⟨[], [], [], [], []⟩

/-- `collection in self.collections` plus retrieval. -/
def DBState.getColl? (db : DBState) (name : String) : Option Collection :=
  if name = "User" then some db.user
  else if name = "Game" then some db.game
  else if name = "Version" then some db.version
  else if name = "Room" then some db.room
  else if name = "Review" then some db.review
  else none

/-- Store back a collection under its name. -/
def DBState.setColl (db : DBState) (name : String) (c : Collection) : DBState :=
  if name = "User" then { db with user := c }
  else if name = "Game" then { db with game := c }
  else if name = "Version" then { db with version := c }
  else if name = "Room" then { db with room := c }
  else if name = "Review" then { db with review := c }
  else db

/-- Catalog response: the `{success, id | results | result | count | error}`
shapes the database server returns. -/
inductive DBResult where
  | insertOk (id : DBVal)
  | findOk (results : List Doc)
  | findOneOk (result : Doc)
  | updateOk (count : Nat)
  | deleteOk (count : Nat)
  | err (msg : String)
deriving DecidableEq, Repr

/-- The `success` field of a Catalog response. -/
def DBResult.success : DBResult → Bool
  | .err _ => false
  | _ => true

/-- The `data` object of a Catalog request (`query`, `update`, or the
document fields for an insert). -/
structure DBData where
  query : Doc := []
  update : Doc := []
  fields : Doc := []
deriving DecidableEq, Repr

/-- A Catalog request `{action, collection, data}`. -/
structure DBRequest where
  action : String
  collection : String
  data : DBData
deriving DecidableEq, Repr

/-- `_handle_insert`: id from `data.get('_id') or uuid4()`, stamp
`created_at`, dict-assign into the collection. `fresh`/`now` stand for the
generated uuid and timestamp. -/
def handle_insert (c : Collection) (data : Doc) (fresh now : String) :
    Collection × DBResult :=
  let doc_id : DBVal :=
    match dictGet? data "_id" with
    | some v => if truthy v then v else .s fresh
    | none => .s fresh
  let data1 := dictSet data "_id" doc_id
  let data2 := dictSet data1 "created_at" (.s now)
  (dictSet c doc_id data2, .insertOk doc_id)

/-- `_handle_find`: all matching documents, in collection order. -/
def handle_find (c : Collection) (q : Doc) : DBResult :=
  .findOk ((c.filter (fun p => match_query p.2 q)).map (fun p => p.2))

/-- `_handle_find_one`: first matching document or `Not found`. -/
def handle_find_one (c : Collection) (q : Doc) : DBResult :=
  match c.find? (fun p => match_query p.2 q) with
  | some p => .findOneOk p.2
  | none => .err "Not found"

/-- `_handle_update`: merge `update` into every matching doc and stamp
`updated_at`. -/
def handle_update (c : Collection) (q upd : Doc) (now : String) :
    Collection × DBResult :=
  (c.map (fun p =>
      if match_query p.2 q then (p.1, dictSet (docUpdate p.2 upd) "updated_at" (.s now))
      else p),
   .updateOk (c.countP (fun p => match_query p.2 q)))

/-- `_handle_delete`: drop every matching doc. -/
def handle_delete (c : Collection) (q : Doc) : Collection × DBResult :=
  (c.filter (fun p => !(match_query p.2 q)),
   .deleteOk (c.countP (fun p => match_query p.2 q)))

/-- `_process_request` of the database server: falsy action or unknown
collection is `Invalid request`; otherwise dispatch on the action. -/
def process_request (db : DBState) (req : DBRequest) (fresh now : String) :
    DBState × DBResult :=
  if req.action = "" then (db, .err "Invalid request")
  else
    match db.getColl? req.collection with
    | none => (db, .err "Invalid request")
    | some c =>
      if req.action = "insert" then
        let r := handle_insert c req.data.fields fresh now
        (db.setColl req.collection r.1, r.2)
      else if req.action = "find" then (db, handle_find c req.data.query)
      else if req.action = "find_one" then (db, handle_find_one c req.data.query)
      else if req.action = "update" then
        let r := handle_update c req.data.query req.data.update now
        (db.setColl req.collection r.1, r.2)
      else if req.action = "delete" then
        let r := handle_delete c req.data.query
        (db.setColl req.collection r.1, r.2)
      else (db, .err "Unknown action")

/-! The Lobby's game-server port allocator (`_find_available_port`).
`busy p` models whether binding TCP `0.0.0.0:p` fails. -/

/-- The `for port in range(cursor, 5100)` loop: first port whose test bind
succeeds, scanning upward; `m` is the number of remaining candidates. -/
def first_free (busy : Nat → Bool) : Nat → Nat → Option Nat
  | _, 0 => none
  | p, m + 1 => if busy p then first_free busy (p + 1) m else some p

/-- `_find_available_port`: scan `[cursor, 5099]`; on success return the port
and advance the cursor past it; on exhaustion reset the cursor to 5000 and
fail (the `None` component models the raised exception). -/
def find_available_port (busy : Nat → Bool) (cursor : Nat) : Option Nat × Nat :=
  match first_free busy cursor (5100 - cursor) with
  | some p => (some p, p + 1)
  | none => (none, 5000)

/-- A run of consecutive allocations in which every allocated port stays bound
(the spawned game server holds it; no release). -/
def allocSeq : Nat → (Nat → Bool) → Nat → List (Option Nat) × Nat
  | 0, _, cur => ([], cur)
  | m + 1, busy, cur =>
    match find_available_port busy cur with
    | (some p, c') =>
      let rest := allocSeq m (fun q => decide (q = p) || busy q) c'
      (some p :: rest.1, rest.2)
    | (none, c') =>
      let rest := allocSeq m busy c'
      (none :: rest.1, rest.2)

/-! Developer Gateway: package validation and the upload conversation. -/

/-- A `server`/`client` sub-object of `game_info.json`.  Entry points are
modelled as string-valued when present. -/
structure SrvCfg where
  entry_point : Option String
  start_command : Option String
  arguments : Option (List String)
deriving DecidableEq, Repr

/-- The parsed `game_info.json`: scalar top-level fields plus the two
sub-objects. -/
structure GameManifest where
  fields : Doc
  server : Option SrvCfg
  client : Option SrvCfg
deriving DecidableEq, Repr

/-- Outcome of locating and parsing `game_info.json` in the staged
directory. -/
inductive JsonRead where
  | missing
  | badJson (e : String)
  | parsed (m : GameManifest)
deriving DecidableEq, Repr

/-- `validate_game_package`: the checks of `common/validate_game.py`, in
source order, returning the first violation as the error string. -/
def validate_game_package (pkgFiles : List String) (read : JsonRead) :
    Except String GameManifest :=
  match read with
  | .missing => .error "Missing game_info.json"
  | .badJson e => .error ("Invalid JSON in game_info.json: " ++ e)
  | .parsed m =>
    match (["name", "version", "description", "min_players", "max_players"].find?
        (fun f => !(dictHas m.fields f))) with
    | some f => .error ("Missing required field: " ++ f)
    | none =>
      match m.server with
      | none => .error "Missing 'server' configuration"
      | some sc =>
        match sc.entry_point with
        | none => .error "Missing server.entry_point"
        | some ep =>
          if !(pkgFiles.contains ep) then .error ("Server entry point not found: " ++ ep)
          else
            match m.client with
            | none => .error "Missing 'client' configuration"
            | some cc =>
              match cc.entry_point with
              | none => .error "Missing client.entry_point"
              | some cp =>
                if !(pkgFiles.contains cp) then .error ("Client entry point not found: " ++ cp)
                else .ok m

/-- Python `str()` of a scalar, for `f"{game_name}_{version}"`. -/
def renderVal : DBVal → String
  | .s v => v
  | .n v => toString v
  | .b v => if v then "True" else "False"
  | .nil => "None"

/-- Outcome of receiving one file (its `{path, size}` info message and its
file frame) in the upload loop. -/
inductive FrameRes where
  | ok (path : String)
  | noInfo
  | recvFail (path : String)
deriving DecidableEq, Repr

/-- Whether the frame arrived whole. -/
def FrameRes.isOk : FrameRes → Bool
  | .ok _ => true
  | _ => false

/-- The exception message the handler's receive loop raises for a bad
frame. -/
def FrameRes.errMsg : FrameRes → String
  | .ok _ => ""
  | .noInfo => "Failed to receive file info"
  | .recvFail p => "Failed to receive file: " ++ p

/-- Gateway-visible filesystem: whether this conversation's `temp_<id>/`
directory exists, and the set of promoted `uploads/<name>_<version>/`
directory names. -/
structure GatewayFS where
  temp : Bool
  uploads : List String
deriving DecidableEq, Repr

/-- A Gateway reply `{success, error?, message?}`. -/
structure GResp where
  success : Bool
  error : Option String := none
  message : Option String := none
deriving DecidableEq, Repr

/-- Result of an upload conversation: final filesystem, final Catalog, the
reply (`none` models `return None` on a dead connection), and whether the
ready reply was sent. -/
structure UploadOut where
  fs : GatewayFS
  db : DBState
  resp : Option GResp
  readySent : Bool
deriving DecidableEq, Repr

/-- `_handle_upload_game` of the Developer Gateway.  `game_name` is the
request's name after the handler's `.strip()`; `frames i` is the outcome of
receiving the `i`-th file; `pkgFiles`/`jsonRead` describe the staged bytes as
`validate_game_package` will see them; `gameInsertOk` and `versionInsertOk`
are the transport outcomes of the two Catalog inserts; `freshG`/`freshV`/
`now` are the generated ids and timestamp. -/
def handle_upload_game (db : DBState) (fs : GatewayFS) (dev_id dev_name : String)
    (game_name : String) (fileCountMsg : Option Nat) (frames : Nat → FrameRes)
    (pkgFiles : List String) (jsonRead : JsonRead)
    (gameInsertOk versionInsertOk : Bool) (freshG freshV now : String) : UploadOut :=
  let gname := game_name
  if gname = "" then ⟨fs, db, some ⟨false, some "Game name required", none⟩, false⟩
  else if (handle_find_one db.game [("name", .s gname)]).success then
    ⟨fs, db, some ⟨false, some "Game name already exists", none⟩, false⟩
  else
    match fileCountMsg with
    | none => ⟨fs, db, none, true⟩
    | some file_count =>
      if file_count = 0 then
        ⟨fs, db, some ⟨false, some "No files to upload", none⟩, true⟩
      else
        let fs1 : GatewayFS := { fs with temp := true }
        match (List.range file_count).find? (fun i => !(frames i).isOk) with
        | some i =>
          ⟨{ fs1 with temp := false }, db, some ⟨false, some (frames i).errMsg, none⟩, true⟩
        | none =>
          match validate_game_package pkgFiles jsonRead with
          | .error e =>
            ⟨{ fs1 with temp := false }, db,
             some ⟨false, some ("Invalid game package: " ++ e), none⟩, true⟩
          | .ok m =>
            let versionVal := (dictGet? m.fields "version").getD .nil
            let final_dir := gname ++ "_" ++ renderVal versionVal
            let fs2 : GatewayFS :=
              { temp := false,
                uploads :=
                  if fs1.uploads.contains final_dir then fs1.uploads
                  else fs1.uploads ++ [final_dir] }
            if gameInsertOk then
              let gameDoc : Doc :=
                [("name", .s gname), ("developer_id", .s dev_id),
                 ("developer_name", .s dev_name), ("latest_version", versionVal),
                 ("description", (dictGet? m.fields "description").getD (.s "")),
                 ("min_players", (dictGet? m.fields "min_players").getD (.n 2)),
                 ("max_players", (dictGet? m.fields "max_players").getD (.n 2)),
                 ("status", .s "active")]
              let r1 := process_request db ⟨"insert", "Game", ⟨[], [], gameDoc⟩⟩ freshG now
              let game_id := match r1.2 with | .insertOk i => i | _ => .nil
              let db2 :=
                if versionInsertOk then
                  (process_request r1.1
                    ⟨"insert", "Version",
                     ⟨[], [], [("game_id", game_id), ("version", versionVal),
                               ("file_path", .s final_dir)]⟩⟩ freshV now).1
                else r1.1
              ⟨fs2, db2,
               some ⟨true, none,
                     some ("Game \"" ++ gname ++ "\" v" ++ renderVal versionVal
                           ++ " uploaded successfully")⟩, true⟩
            else
              ⟨fs2, db, some ⟨false, some "Failed to save game to database", none⟩, true⟩

/-! Claim C5: cleanup behavior of a failed `upload_game` conversation. -/

/-- A well-formed demonstration package manifest. -/
def demoManifest : GameManifest :=
  ⟨[("name", .s "chat"), ("version", .s "1.0"), ("description", .s "d"),
    ("min_players", .n 2), ("max_players", .n 2)],
   some ⟨some "server.py", some "python", none⟩,
   some ⟨some "client.py", some "python", none⟩⟩

/-! Lobby / Matchmaker.  Sessions, rooms, and the request handlers of
`lobby_server.py`.  Game-server subprocesses are modelled by their pid (their
`poll()` outcomes are oracle inputs, since they depend on the external
process); open log-file handles are ids tracked in `LobbyState.openLogs`;
`Popen` calls are recorded in `LobbyState.spawns`.  A handler that raises an
uncaught Python exception is modelled as returning no response (`none`) with
exactly the mutations performed before the raise. -/

/-- A user id as stored in Catalog `_id` fields. -/
abbrev UserId := DBVal

/-- A room record as built by `_handle_create_room` and mutated in place by
the other handlers.  `max_players` is integer-valued (a non-integer value
from a manifest would make the handlers raise on comparison and is modelled
as the exception path at room creation). -/
structure Room where
  room_id : String
  game_name : String
  game_id : DBVal
  version : DBVal
  host_id : UserId
  host_name : String
  players : List UserId
  max_players : Int
  status : String
  game_process : Option Nat
  game_port : Option Nat
  game_log_file : Option Nat
deriving DecidableEq, Repr

/-- Lobby shared state: `self.sessions` (user_id → username; the stored
protocol object is not modelled), `self.rooms`, `self.next_game_port`, plus
the modelled world of open log handles and spawned processes. -/
structure LobbyState where
  sessions : List (UserId × String)
  rooms : List (String × Room)
  next_game_port : Nat
  openLogs : List Nat
  spawns : List (List String × Nat)
deriving DecidableEq, Repr

/-- Per-connection session dict `{logged_in, user_id, username}`. -/
structure ConnSession where
  logged_in : Bool
  user_id : UserId
  username : String
deriving DecidableEq, Repr

/-- A Lobby reply: the `success` flag, its scalar fields, and any list-of-
document payload (games / rooms / reviews). -/
structure LResp where
  success : Bool
  fields : Doc := []
  docs : List Doc := []
deriving DecidableEq, Repr

/-- An error reply `{success: false, error: msg}`. -/
def lerr (msg : String) : LResp := ⟨false, [("error", .s msg)], []⟩

/-- The configured advertised game-server hostname (constructor default). -/
def advertise_host : String := "linux4.cs.nycu.edu.tw"

/-- The configured upload directory (constructor default). -/
def upload_dir : String := "uploaded_games"

/-- Closing a room's log handle (`room['game_log_file'].close()`), a no-op
when the room holds none. -/
def closeLog (logs : List Nat) : Option Nat → List Nat
  | some h => logs.erase h
  | none => logs

/-- The Lobby's `find_one` Catalog round trip: `some doc` iff the reply was
`{success: true, result: doc}`. -/
def lobby_find_one (c : Collection) (q : Doc) : Option Doc :=
  match handle_find_one c q with
  | .findOneOk d => some d
  | _ => none

/-- One step of `_remove_user_from_all_rooms`: drop the user from a room,
deleting the room when it empties (its log handle is not touched — the
terminate call is the only cleanup in this code path), else promoting
`players[0]` when the departed user hosted (`host_name` refreshed only when
the new host has a live session). -/
def removeUserEntry (sessions : List (UserId × String)) (uid : UserId)
    (pr : String × Room) : Option (String × Room) :=
  if uid ∈ pr.2.players then
    let ps := pr.2.players.erase uid
    if ps = [] then none
    else if pr.2.host_id = uid then
      some (pr.1, { pr.2 with
        players := ps,
        host_id := ps.headD .nil,
        host_name := (match dictGet? sessions (ps.headD .nil) with
          | some uname => uname
          | none => pr.2.host_name) })
    else some (pr.1, { pr.2 with players := ps })
  else some pr

/-- `_remove_user_from_all_rooms`. -/
def remove_user_from_all_rooms (st : LobbyState) (uid : UserId) : LobbyState :=
  { st with rooms := st.rooms.filterMap (removeUserEntry st.sessions uid) }

/-- `_cleanup_session`: drop the session, then remove the user from all
rooms. -/
def cleanup_session (st : LobbyState) (uid : UserId) : LobbyState :=
  remove_user_from_all_rooms { st with sessions := dictErase st.sessions uid } uid

/-- `_handle_login`.  `username`/`password` are the stripped request fields;
`hash` is SHA-256 (kept abstract). -/
def handle_login (st : LobbyState) (db : DBState) (sess : ConnSession)
    (hash : String → String) (username password : String) :
    LobbyState × ConnSession × Option LResp :=
  if username = "" ∨ password = "" then
    (st, sess, some (lerr "Username and password required"))
  else
    match lobby_find_one db.user
        [("username", .s username), ("account_type", .s "player")] with
    | none => (st, sess, some (lerr "Invalid username or password"))
    | some user =>
      match dictGet? user "password_hash" with
      | none => (st, sess, none)
      | some ph =>
        if ph ≠ .s (hash password) then
          (st, sess, some (lerr "Invalid username or password"))
        else
          match dictGet? user "_id" with
          | none => (st, sess, none)
          | some uid =>
            if dictHas st.sessions uid then
              (st, sess, some (lerr "Account already logged in"))
            else
              match dictGet? user "username" with
              | some (.s uname) =>
                ({ st with sessions := dictSet st.sessions uid username },
                 ⟨true, uid, uname⟩,
                 some ⟨true, [("message", .s ("Welcome " ++ username ++ "!"))], []⟩)
              | _ => (st, sess, none)

/-- `_handle_list_games`: active games only. -/
def handle_list_games (db : DBState) : LResp :=
  match handle_find db.game [("status", .s "active")] with
  | .findOk results => ⟨true, [], results⟩
  | _ => lerr "Failed to fetch games"

/-- `_handle_game_info`: requires the game active; returns the game, its
first 10 reviews and the review count (the floating-point `avg_rating` is
not modelled). -/
def handle_game_info (db : DBState) (game_name : String) : Option LResp :=
  if game_name = "" then some (lerr "Game name required")
  else
    match lobby_find_one db.game [("name", .s game_name), ("status", .s "active")] with
    | none => some (lerr "Game not found")
    | some game =>
      match dictGet? game "_id" with
      | none => none
      | some gid =>
        let reviews := match handle_find db.review [("game_id", gid)] with
          | .findOk rs => rs
          | _ => []
        some ⟨true, [("review_count", .n reviews.length)], game :: reviews.take 10⟩

/-- `_handle_download_game` up to the streaming phase: all gating checks; the
streaming tail sends its own frames and yields no dispatcher response
(`none`).  `fsExists` models `os.path.exists(game_dir)`. -/
def handle_download_game (db : DBState) (game_name : String) (fsExists : Bool) :
    Option LResp :=
  if game_name = "" then some (lerr "Game name required")
  else
    match lobby_find_one db.game [("name", .s game_name), ("status", .s "active")] with
    | none => some (lerr "Game not found")
    | some game =>
      match dictGet? game "latest_version" with
      | none => none
      | some version =>
        match dictGet? game "_id" with
        | none => none
        | some gid =>
          match lobby_find_one db.version [("game_id", gid), ("version", version)] with
          | none => some (lerr "Version not found")
          | some vinfo =>
            match dictGet? vinfo "file_path" with
            | none => none
            | some _ =>
              if fsExists then none else some (lerr "Game files not found")

/-- One row of the `_handle_list_rooms` summary. -/
def room_summary (pr : String × Room) : Doc :=
  [("room_id", .s pr.1), ("game_name", .s pr.2.game_name), ("version", pr.2.version),
   ("host", .s pr.2.host_name), ("players", .n pr.2.players.length),
   ("max_players", .n pr.2.max_players), ("status", .s pr.2.status)]

/-- `_handle_list_rooms`. -/
def handle_list_rooms (st : LobbyState) : LResp :=
  ⟨true, [], st.rooms.map room_summary⟩

/-- `_handle_create_room`: kick the caller out of any prior room, require the
game active, then insert a fresh one-player room (`rid` is the generated
`uuid4()[:8]`). -/
def handle_create_room (st : LobbyState) (db : DBState) (sess : ConnSession)
    (game_name rid : String) : LobbyState × Option LResp :=
  if game_name = "" then (st, some (lerr "Game name required"))
  else
    let st1 := remove_user_from_all_rooms st sess.user_id
    match lobby_find_one db.game [("name", .s game_name), ("status", .s "active")] with
    | none => (st1, some (lerr "Game not found"))
    | some game =>
      match dictGet? game "_id", dictGet? game "latest_version",
          dictGet? game "max_players" with
      | some gid, some lv, some (.n mx) =>
        let room : Room :=
          ⟨rid, game_name, gid, lv, sess.user_id, sess.username,
           [sess.user_id], mx, "waiting", none, none, none⟩
        ({ st1 with rooms := dictSet st1.rooms rid room },
         some ⟨true,
           [("room_id", .s rid),
            ("message", .s ("Room created for " ++ game_name)),
            ("is_host", .b true)], []⟩)
      | _, _, _ => (st1, none)

/-- `_handle_join_room`: kick the caller out of any prior room, then require
the target to exist, be waiting, and have a free slot. -/
def handle_join_room (st : LobbyState) (sess : ConnSession) (room_id : String) :
    LobbyState × Option LResp :=
  if room_id = "" then (st, some (lerr "Room ID required"))
  else
    let st1 := remove_user_from_all_rooms st sess.user_id
    match dictGet? st1.rooms room_id with
    | none => (st1, some (lerr "Room not found"))
    | some room =>
      if room.status ≠ "waiting" then (st1, some (lerr "Room is not accepting players"))
      else if (room.players.length : Int) ≥ room.max_players then
        (st1, some (lerr "Room is full"))
      else if sess.user_id ∈ room.players then
        (st1, some (lerr "Already in room"))
      else
        ({ st1 with rooms := (dictSet st1.rooms room_id
            { room with players := room.players ++ [sess.user_id] }) },
         some ⟨true,
           [("room_id", .s room_id), ("game_name", .s room.game_name),
            ("is_host", .b false)], []⟩)

/-- `_handle_leave_room`: remove the caller from the first room that holds
them; destroy an emptied room (closing its log); else promote a new host and
— only then — reset a stale `in_game` status (`pollEnded` is the `poll()`
outcome).  Looking up the promoted host's username raises `KeyError` when
that user has no session, after the membership mutations took effect. -/
def handle_leave_room (st : LobbyState) (sess : ConnSession) (pollEnded : Bool) :
    LobbyState × Option LResp :=
  match st.rooms.find? (fun pr => decide (sess.user_id ∈ pr.2.players)) with
  | none => (st, some (lerr "Not in any room"))
  | some pr =>
    let rid := pr.1
    let room := pr.2
    let ps := room.players.erase sess.user_id
    if ps = [] then
      ({ st with rooms := dictErase st.rooms rid,
                 openLogs := closeLog st.openLogs room.game_log_file },
       some ⟨true, [("message", .s "Left room")], []⟩)
    else if room.host_id = sess.user_id then
      match dictGet? st.sessions (ps.headD .nil) with
      | none =>
        ({ st with rooms := (dictSet st.rooms rid
            { room with players := ps, host_id := ps.headD .nil }) }, none)
      | some uname =>
        let room1 := { room with
          players := ps, host_id := ps.headD .nil, host_name := uname }
        if room1.status = "in_game" then
          let ended := match room1.game_process with
            | some _ => pollEnded
            | none => true
          if ended then
            ({ st with
                rooms := (dictSet st.rooms rid
                  { room1 with
                    status := "waiting", game_process := none,
                    game_port := none, game_log_file := none }),
                openLogs := closeLog st.openLogs room1.game_log_file },
             some ⟨true, [("message", .s "Left room")], []⟩)
          else
            ({ st with rooms := dictSet st.rooms rid room1 },
             some ⟨true, [("message", .s "Left room")], []⟩)
        else
          ({ st with rooms := dictSet st.rooms rid room1 },
           some ⟨true, [("message", .s "Left room")], []⟩)
    else
      ({ st with rooms := dictSet st.rooms rid { room with players := ps } },
       some ⟨true, [("message", .s "Left room")], []⟩)

/-- Oracle inputs of one `_handle_start_game` call: the stale-process poll
outcome, the port bind tests, the `game_info.json` read (`none` models a
read/parse exception), the spawn outcome, the new pid, the early-crash poll
after the 300 ms sleep, and the handle of the freshly opened log file. -/
structure StartEnv where
  pollEnded : Bool
  busy : Nat → Bool
  manifest : Option GameManifest
  spawnRaise : Bool
  spawnErr : String
  pid : Nat
  earlyExit : Option Int
  logHandle : Nat

/-- The tail of `_handle_start_game` after the stale-game handling: re-fetch
the Game to float `room['version']` to the current `latest_version`, look up
that Version, read its manifest, allocate a port, spawn the server from the
version's directory, and on survival of the 300 ms early-crash window mark
the room `in_game`. -/
def start_game_launch (db : DBState) (env : StartEnv) (rid : String)
    (st1 : LobbyState) (room1 : Room) : LobbyState × Option LResp :=
  match lobby_find_one db.game [("_id", room1.game_id), ("status", .s "active")] with
  | none => (st1, some (lerr "Game not found"))
  | some game =>
    match dictGet? game "latest_version" with
    | none => (st1, none)
    | some latest =>
      let room2 := { room1 with version := latest }
      let st2 := { st1 with rooms := dictSet st1.rooms rid room2 }
      match lobby_find_one db.version
          [("game_id", room2.game_id), ("version", latest)] with
      | none => (st2, some (lerr "Game version not found"))
      | some vinfo =>
        match dictGet? vinfo "file_path" with
        | none => (st2, none)
        | some fp =>
          let game_dir := upload_dir ++ "/" ++ renderVal fp
          match env.manifest with
          | none => (st2, none)
          | some manifest =>
            match find_available_port env.busy st2.next_game_port with
            | (none, cur') =>
              ({ st2 with next_game_port := cur' },
               some (lerr
                 "No available ports: No available ports in range 5000-5100"))
            | (some game_port, cur') =>
              let st3 := { st2 with next_game_port := cur' }
              match manifest.server with
              | none => (st3, none)
              | some server_config =>
                match server_config.entry_point with
                | none => (st3, none)
                | some ep =>
                  let server_script := game_dir ++ "/" ++ ep
                  let command :=
                    [server_config.start_command.getD "python", server_script]
                    ++ (server_config.arguments.getD []).map (fun a =>
                        (a.replace "{PORT}" (toString game_port)).replace
                          "{NUM_PLAYERS}" (toString room2.players.length))
                  let st4 := { st3 with openLogs := st3.openLogs ++ [env.logHandle] }
                  if env.spawnRaise then
                    (st4, some (lerr ("Failed to start server: " ++ env.spawnErr)))
                  else
                    let st5 := { st4 with spawns := st4.spawns ++ [(command, game_port)] }
                    match env.earlyExit with
                    | some code =>
                      ({ st5 with
                          openLogs := st5.openLogs.erase env.logHandle,
                          rooms := (dictSet st5.rooms rid
                            { room2 with
                              status := "waiting",
                              game_process := none, game_port := none }) },
                       some (lerr ("Game server crashed on startup (exit "
                         ++ toString code ++ "). Check server logs.")))
                    | none =>
                      ({ st5 with rooms := (dictSet st5.rooms rid
                          { room2 with
                            status := "in_game",
                            game_process := some env.pid,
                            game_port := some game_port,
                            game_log_file := some env.logHandle }) },
                       some ⟨true,
                         [("game_server_host", .s advertise_host),
                          ("game_server_port", .n game_port),
                          ("game_name", .s room2.game_name),
                          ("version", room2.version)], []⟩)

/-- `_handle_start_game` (host only): handle a stale `in_game` status (poll
up to 2 s; reset to waiting if the process exited, else fail), then launch. -/
def handle_start_game (st : LobbyState) (db : DBState) (sess : ConnSession)
    (env : StartEnv) : LobbyState × Option LResp :=
  match st.rooms.find? (fun pr => decide (sess.user_id ∈ pr.2.players)) with
  | none => (st, some (lerr "Not in any room"))
  | some pr =>
    let rid := pr.1
    let room := pr.2
    if room.host_id ≠ sess.user_id then (st, some (lerr "Only host can start game"))
    else
      if room.status = "in_game" then
        let ended := match room.game_process with
          | some _ => env.pollEnded
          | none => true
        if ended then
          let room1 := { room with
            status := "waiting", game_process := none,
            game_port := none, game_log_file := none }
          start_game_launch db env rid
            { st with rooms := dictSet st.rooms rid room1,
                      openLogs := closeLog st.openLogs room.game_log_file } room1
        else (st, some (lerr "Game already started"))
      else start_game_launch db env rid st room

/-- `_handle_check_game_status`: computes `is_host` fresh, resets a room
whose game process has exited (returning only `{success, game_started:
false}` in that branch), and otherwise reports full room identity. -/
def handle_check_game_status (st : LobbyState) (sess : ConnSession)
    (pollEnded : Bool) : LobbyState × Option LResp :=
  match st.rooms.find? (fun pr => decide (sess.user_id ∈ pr.2.players)) with
  | none => (st, some ⟨true, [("game_started", .b false)], []⟩)
  | some pr =>
    let rid := pr.1
    let room := pr.2
    let is_host := room.host_id = sess.user_id
    if room.status = "in_game" then
      let ended := match room.game_process with
        | some _ => pollEnded
        | none => true
      if ended then
        ({ st with
          rooms := (dictSet st.rooms rid
            { room with
              status := "waiting", game_process := none,
              game_port := none, game_log_file := none }),
          openLogs := closeLog st.openLogs room.game_log_file },
         some ⟨true, [("game_started", .b false)], []⟩)
      else
        (st, some ⟨true,
          [("game_started", .b true),
           ("game_server_host", .s advertise_host),
           ("game_server_port", match room.game_port with | some p => .n p | none => .nil),
           ("game_name", .s room.game_name),
           ("version", room.version),
           ("room_id", .s room.room_id),
           ("host_id", room.host_id),
           ("host_name", .s room.host_name),
           ("is_host", .b is_host),
           ("status", .s room.status)], []⟩)
    else
      (st, some ⟨true,
        [("game_started", .b false),
         ("room_id", .s room.room_id),
         ("host_id", room.host_id),
         ("host_name", .s room.host_name),
         ("is_host", .b is_host),
         ("status", .s room.status)], []⟩)

/-- `_handle_end_game`: reset an `in_game` room to waiting, closing its log
(terminating a still-live process has no further modelled effect). -/
def handle_end_game (st : LobbyState) (sess : ConnSession) :
    LobbyState × Option LResp :=
  match st.rooms.find? (fun pr => decide (sess.user_id ∈ pr.2.players)) with
  | none => (st, some ⟨true, [("message", .s "Not in any room")], []⟩)
  | some pr =>
    let rid := pr.1
    let room := pr.2
    if room.status ≠ "in_game" then
      (st, some ⟨true, [("message", .s "Game not in progress")], []⟩)
    else
      ({ st with
          rooms := (dictSet st.rooms rid
            { room with
              status := "waiting", game_process := none,
              game_port := none, game_log_file := none }),
          openLogs := closeLog st.openLogs room.game_log_file },
       some ⟨true, [("message", .s "Game ended, room reset to waiting")], []⟩)

/-- `_handle_submit_review`: range-check the rating, look the game up by
name with no status filter, and insert the Review. -/
def handle_submit_review (db : DBState) (sess : ConnSession)
    (game_name : String) (rating : Option Int) (comment : String)
    (fresh now : String) : DBState × Option LResp :=
  if game_name = "" ∨ rating = none then
    (db, some (lerr "Game name and rating required"))
  else
    match rating with
    | none => (db, some (lerr "Game name and rating required"))
    | some r =>
      if ¬(1 ≤ r ∧ r ≤ 5) then (db, some (lerr "Rating must be 1-5"))
      else
        match lobby_find_one db.game [("name", .s game_name)] with
        | none => (db, some (lerr "Game not found"))
        | some game =>
          match dictGet? game "_id" with
          | none => (db, none)
          | some gid =>
            let out := process_request db ⟨"insert", "Review",
              ⟨[], [],
               [("game_id", gid), ("player_id", sess.user_id),
                ("player_name", .s sess.username), ("rating", .n r),
                ("comment", .s comment)]⟩⟩ fresh now
            (out.1, some ⟨true, [("message", .s "Review submitted")], []⟩)

/-- One Lobby request (or a disconnect), carrying its oracle inputs. -/
inductive LobbyOp where
  | login (username password : String)
  | logout
  | disconnect
  | list_games
  | game_info (game_name : String)
  | download_game (game_name : String) (fsExists : Bool)
  | list_rooms
  | create_room (game_name rid : String)
  | join_room (room_id : String)
  | leave_room (pollEnded : Bool)
  | start_game (env : StartEnv)
  | check_game_status (pollEnded : Bool)
  | end_game
  | submit_review (game_name : String) (rating : Option Int) (comment fresh now : String)

/-- Result of processing one request: new shared state, new Catalog, new
connection session, and the response (if any). -/
structure OpOut where
  st : LobbyState
  db : DBState
  sess : ConnSession
  resp : Option LResp

/-- `_process_request` of the Lobby: the login gate and dispatch to the
handlers, plus the disconnect cleanup of `_handle_client`. -/
def applyOp (st : LobbyState) (db : DBState) (sess : ConnSession)
    (hash : String → String) : LobbyOp → OpOut
  | .login u p =>
    let r := handle_login st db sess hash u p
    ⟨r.1, db, r.2.1, r.2.2⟩
  | .disconnect =>
    if sess.logged_in then ⟨cleanup_session st sess.user_id, db, sess, none⟩
    else ⟨st, db, sess, none⟩
  | .logout =>
    if sess.logged_in then
      ⟨cleanup_session st sess.user_id, db, { sess with logged_in := false },
       some ⟨true, [], []⟩⟩
    else ⟨st, db, sess, some (lerr "Not logged in")⟩
  | .list_games =>
    if sess.logged_in then ⟨st, db, sess, some (handle_list_games db)⟩
    else ⟨st, db, sess, some (lerr "Not logged in")⟩
  | .game_info g =>
    if sess.logged_in then ⟨st, db, sess, handle_game_info db g⟩
    else ⟨st, db, sess, some (lerr "Not logged in")⟩
  | .download_game g fsE =>
    if sess.logged_in then ⟨st, db, sess, handle_download_game db g fsE⟩
    else ⟨st, db, sess, some (lerr "Not logged in")⟩
  | .list_rooms =>
    if sess.logged_in then ⟨st, db, sess, some (handle_list_rooms st)⟩
    else ⟨st, db, sess, some (lerr "Not logged in")⟩
  | .create_room g rid =>
    if sess.logged_in then
      let r := handle_create_room st db sess g rid
      ⟨r.1, db, sess, r.2⟩
    else ⟨st, db, sess, some (lerr "Not logged in")⟩
  | .join_room rid =>
    if sess.logged_in then
      let r := handle_join_room st sess rid
      ⟨r.1, db, sess, r.2⟩
    else ⟨st, db, sess, some (lerr "Not logged in")⟩
  | .leave_room pe =>
    if sess.logged_in then
      let r := handle_leave_room st sess pe
      ⟨r.1, db, sess, r.2⟩
    else ⟨st, db, sess, some (lerr "Not logged in")⟩
  | .start_game env =>
    if sess.logged_in then
      let r := handle_start_game st db sess env
      ⟨r.1, db, sess, r.2⟩
    else ⟨st, db, sess, some (lerr "Not logged in")⟩
  | .check_game_status pe =>
    if sess.logged_in then
      let r := handle_check_game_status st sess pe
      ⟨r.1, db, sess, r.2⟩
    else ⟨st, db, sess, some (lerr "Not logged in")⟩
  | .end_game =>
    if sess.logged_in then
      let r := handle_end_game st sess
      ⟨r.1, db, sess, r.2⟩
    else ⟨st, db, sess, some (lerr "Not logged in")⟩
  | .submit_review g rt cm fr nw =>
    if sess.logged_in then
      let r := handle_submit_review db sess g rt cm fr nw
      ⟨st, r.1, sess, r.2⟩
    else ⟨st, db, sess, some (lerr "Not logged in")⟩

/-! Room invariants.  `roomsWF` is the conjunction of the documented room
invariants — `host_id ∈ players`, `|players| ≤ max_players`, no empty room —
with global membership discipline (the concatenation of all player lists has
no duplicates, so a user sits in at most one room) and the dict discipline
that room ids are unique keys. -/

/-- The room invariants over the Lobby's room table. -/
def roomsWF (l : List (String × Room)) : Prop :=
  (∀ pr ∈ l, pr.2.host_id ∈ pr.2.players
      ∧ (pr.2.players.length : Int) ≤ pr.2.max_players ∧ pr.2.players ≠ [])
  ∧ ((l.map (fun pr => pr.2.players)).flatten).Nodup
  ∧ (l.map Prod.fst).Nodup

/-- The Lobby invariant of claim C1. -/
def lobbyWF (st : LobbyState) : Prop := roomsWF st.rooms

instance (l : List (String × Room)) : Decidable (roomsWF l) := by
  unfold roomsWF
  infer_instance

instance (st : LobbyState) : Decidable (lobbyWF st) := by
  unfold lobbyWF
  infer_instance

/-- Every Game document in the Catalog whose `max_players` field is an
integer has it at least 1 (what a sane manifest provides; the Gateway never
checks it). -/
def gamesMaxOK (db : DBState) : Bool :=
  db.game.all (fun p =>
    match dictGet? p.2 "max_players" with
    | some (.n m) => decide (1 ≤ m)
    | _ => true)

/-- A one-player waiting room whose recorded version (1.0) is stale. -/
def demoStartRoom : String × Room :=
  ("r1", ⟨"r1", "chat", .s "g1", .s "1.0", .s "u1", "alice",
    [.s "u1"], 2, "waiting", none, none, none⟩)

/-- A Lobby holding that room and its host's session. -/
def demoStartState : LobbyState :=
  ⟨[(.s "u1", "alice")], [demoStartRoom], 5000, [], []⟩

/-- A Catalog in which the game was updated to 1.1 after the room was
created. -/
def demoStartDB : DBState :=
  ⟨[],
   [(.s "g1", [("_id", .s "g1"), ("name", .s "chat"), ("status", .s "active"),
     ("latest_version", .s "1.1"), ("max_players", .n 2)])],
   [(.s "v1", [("_id", .s "v1"), ("game_id", .s "g1"), ("version", .s "1.1"),
     ("file_path", .s "chat_1.1")])],
   [], []⟩

/-- Oracle inputs for a clean spawn. -/
def demoStartEnv : StartEnv :=
  ⟨true, fun _ => false,
   some ⟨[], some ⟨some "server.py", some "python", some []⟩, none⟩,
   false, "", 42, none, 9⟩

/-! Basic dictionary lemmas. -/

theorem dictHas_of_get {κ α : Type} [DecidableEq κ] {c : List (κ × α)} {k : κ} {v : α}
    (h : dictGet? c k = some v) : dictHas c k = true := by
  induction c with
  | nil => simp [dictGet?] at h
  | cons p t ih =>
    by_cases hk : p.1 = k
    · simp [dictHas, hk]
    · simp only [dictGet?, if_neg hk] at h
      simp [dictHas, hk, ih h]

theorem dictGet?_dictSet_self {κ α : Type} [DecidableEq κ] (c : List (κ × α)) (k : κ) (v : α) :
    dictGet? (dictSet c k v) k = some v := by
  induction c with
  | nil => simp [dictSet, dictGet?]
  | cons p t ih =>
    by_cases hk : p.1 = k
    · simp [dictSet, hk, dictGet?]
    · simp [dictSet, hk, dictGet?, ih]

theorem dictSet_keys_of_has {κ α : Type} [DecidableEq κ] {c : List (κ × α)} {k : κ} (v : α)
    (h : dictHas c k = true) : (dictSet c k v).map Prod.fst = c.map Prod.fst := by
  induction c with
  | nil => simp [dictHas] at h
  | cons p t ih =>
    by_cases hk : p.1 = k
    · simp [dictSet, hk]
    · simp only [dictHas, Bool.or_eq_true, decide_eq_true_eq] at h
      rcases h with h1 | h2
      · exact absurd h1 hk
      · simp [dictSet, hk, ih h2]

theorem getColl?_setColl_same (db : DBState) (coll : String) (c0 c : Collection)
    (h : db.getColl? coll = some c0) :
    (db.setColl coll c).getColl? coll = some c := by
  unfold DBState.getColl? DBState.setColl at *
  split_ifs at h ⊢ <;> simp_all

/-! Claim C3: Catalog lookup behavior on empty results and unknown
collections. -/

/-- C3 counterexample: a `find` whose equality query matches no document in an
existing (nonempty) collection returns `{success: true, results: []}`, not the
claimed `{success: false, error: "Not found"}`. -/
theorem find_no_match_returns_success_empty :
    (process_request ⟨[(.s "u1", [("_id", .s "u1"), ("username", .s "alice")])], [], [], [], []⟩
        ⟨"find", "User", ⟨[("username", .s "bob")], [], []⟩⟩ "f" "t").2
      = DBResult.findOk []
    ∧ DBResult.success
        ((process_request ⟨[(.s "u1", [("_id", .s "u1"), ("username", .s "alice")])], [], [], [], []⟩
          ⟨"find", "User", ⟨[("username", .s "bob")], [], []⟩⟩ "f" "t").2) = true
    ∧ (process_request ⟨[(.s "u1", [("_id", .s "u1"), ("username", .s "alice")])], [], [], [], []⟩
        ⟨"find", "User", ⟨[("username", .s "bob")], [], []⟩⟩ "f" "t").2
      ≠ DBResult.err "Not found" := by
  refine ⟨by decide, by decide, by decide⟩

/-- C3 (amended): a `find_one` whose query matches nothing in an existing
collection returns `{success: false, error: "Not found"}`; a `find` in the
same situation returns `{success: true, results: []}`; and any request naming
a collection outside {User, Game, Version, Room, Review} returns
`{success: false, error: "Invalid request"}`. -/
theorem catalog_lookup_semantics :
    (∀ (db : DBState) (coll : String) (c : Collection) (q u f : Doc) (fresh now : String),
       db.getColl? coll = some c →
       c.all (fun p => !(match_query p.2 q)) = true →
       (process_request db ⟨"find_one", coll, ⟨q, u, f⟩⟩ fresh now).2 = .err "Not found"
       ∧ (process_request db ⟨"find", coll, ⟨q, u, f⟩⟩ fresh now).2 = .findOk []
       ∧ DBResult.success ((process_request db ⟨"find", coll, ⟨q, u, f⟩⟩ fresh now).2) = true)
    ∧ (∀ (db : DBState) (req : DBRequest) (fresh now : String),
       db.getColl? req.collection = none →
       (process_request db req fresh now).2 = .err "Invalid request") := by
  constructor
  · intro db coll c q u f fresh now hc hall
    have hnone : c.find? (fun p => match_query p.2 q) = none := by
      rw [List.find?_eq_none]
      intro x hx
      have := List.all_eq_true.mp hall x hx
      simpa using this
    have hfilter : c.filter (fun p => match_query p.2 q) = [] := by
      rw [List.filter_eq_nil_iff]
      intro x hx
      have := List.all_eq_true.mp hall x hx
      simpa using this
    refine ⟨?_, ?_, ?_⟩
    · simp [process_request, hc, handle_find_one, hnone]
    · simp [process_request, hc, handle_find, hfilter]
    · simp [process_request, hc, handle_find, hfilter, DBResult.success]
  · intro db req fresh now hc
    unfold process_request
    by_cases ha : req.action = ""
    · simp [ha]
    · simp [ha, hc]

/-- Witness for C3's amended theorem at a concrete Catalog state. -/
theorem catalog_lookup_semantics_witness :
    (process_request DBState.empty ⟨"find_one", "Game", ⟨[("name", .s "zz")], [], []⟩⟩ "f" "t").2
      = DBResult.err "Not found"
    ∧ (process_request DBState.empty ⟨"find", "Bogus", ⟨[], [], []⟩⟩ "f" "t").2
      = DBResult.err "Invalid request" :=
  ⟨(catalog_lookup_semantics.1 DBState.empty "Game" [] [("name", .s "zz")] [] [] "f" "t"
      (by decide) (by decide)).1,
   catalog_lookup_semantics.2 DBState.empty ⟨"find", "Bogus", ⟨[], [], []⟩⟩ "f" "t" (by decide)⟩

/-! Claim C9: inserting with an `_id` that already exists silently replaces
the stored document. -/

/-- C9: a Catalog insert whose data carries a (truthy) `_id` equal to an
existing document's id replaces that document in place with the new data
(restamping `created_at`), returns `{success: true, id}` with the
caller-supplied id, reports no error, and generates no fresh id (the
collection's key sequence is unchanged). -/
theorem insert_replaces_existing_id
    (db : DBState) (coll : String) (c : Collection) (data : Doc) (id : DBVal) (old : Doc)
    (fresh now : String)
    (hc : db.getColl? coll = some c)
    (hid : dictGet? data "_id" = some id)
    (ht : truthy id = true)
    (hmem : dictGet? c id = some old) :
    (process_request db ⟨"insert", coll, ⟨[], [], data⟩⟩ fresh now).2 = .insertOk id
    ∧ DBResult.success ((process_request db ⟨"insert", coll, ⟨[], [], data⟩⟩ fresh now).2) = true
    ∧ ((process_request db ⟨"insert", coll, ⟨[], [], data⟩⟩ fresh now).1.getColl? coll)
        = some (dictSet c id (dictSet (dictSet data "_id" id) "created_at" (.s now)))
    ∧ dictGet? (dictSet c id (dictSet (dictSet data "_id" id) "created_at" (.s now))) id
        = some (dictSet (dictSet data "_id" id) "created_at" (.s now))
    ∧ (dictSet c id (dictSet (dictSet data "_id" id) "created_at" (.s now))).map Prod.fst
        = c.map Prod.fst := by
  have hins : handle_insert c data fresh now
      = (dictSet c id (dictSet (dictSet data "_id" id) "created_at" (.s now)), .insertOk id) := by
    unfold handle_insert
    rw [hid]
    simp [ht]
  refine ⟨?_, ?_, ?_, dictGet?_dictSet_self _ _ _, dictSet_keys_of_has _ (dictHas_of_get hmem)⟩
  · simp [process_request, hc, hins]
  · simp [process_request, hc, hins, DBResult.success]
  · simp only [process_request, if_neg (by decide : ¬("insert" = "")), hc, hins]
    exact getColl?_setColl_same db coll c _ hc

/-- Witness for C9 at a concrete collection holding a document with id
`"g1"`. -/
theorem insert_replaces_existing_id_witness :
    (process_request ⟨[], [(.s "g1", [("_id", .s "g1"), ("name", .s "old")])], [], [], []⟩
        ⟨"insert", "Game", ⟨[], [], [("_id", .s "g1"), ("name", .s "new")]⟩⟩ "fresh" "T1").2
      = DBResult.insertOk (.s "g1") :=
  (insert_replaces_existing_id
    ⟨[], [(.s "g1", [("_id", .s "g1"), ("name", .s "old")])], [], [], []⟩
    "Game" [(.s "g1", [("_id", .s "g1"), ("name", .s "old")])]
    [("_id", .s "g1"), ("name", .s "new")] (.s "g1")
    [("_id", .s "g1"), ("name", .s "old")] "fresh" "T1"
    (by decide) (by decide) (by decide) (by decide)).1

theorem first_free_some {busy : Nat → Bool} :
    ∀ (m p q : Nat), first_free busy p m = some q →
      p ≤ q ∧ q < p + m ∧ busy q = false ∧ ∀ r, p ≤ r → r < q → busy r = true := by
  intro m
  induction m with
  | zero => intro p q h; simp [first_free] at h
  | succ m ih =>
    intro p q h
    by_cases hb : busy p
    · simp only [first_free, hb, if_true] at h
      obtain ⟨h1, h2, h3, h4⟩ := ih (p + 1) q h
      refine ⟨by omega, by omega, h3, ?_⟩
      intro r hr1 hr2
      rcases Nat.eq_or_lt_of_le hr1 with he | hl
      · cases he; exact hb
      · exact h4 r (by omega) hr2
    · simp only [first_free, hb, if_false] at h
      cases h
      exact ⟨le_refl _, by omega, by simpa using hb, fun r hr1 hr2 => absurd hr2 (by omega)⟩

theorem first_free_none {busy : Nat → Bool} :
    ∀ (m p : Nat), first_free busy p m = none →
      ∀ r, p ≤ r → r < p + m → busy r = true := by
  intro m
  induction m with
  | zero => intro p _ r h1 h2; omega
  | succ m ih =>
    intro p h r h1 h2
    by_cases hb : busy p
    · simp only [first_free, hb, if_true] at h
      rcases Nat.eq_or_lt_of_le h1 with he | hl
      · cases he; exact hb
      · exact ih (p + 1) h r (by omega) (by omega)
    · simp [first_free, hb] at h

/-- C4: the Lobby port allocator scans from the cursor upward through 5099 and
returns the first bindable port, advancing the cursor past it; on exhaustion
it resets the cursor to 5000 and fails; back-to-back successful allocations
are strictly increasing (hence pairwise distinct); and on a fresh allocator
with no releases the first 100 allocations yield ports 5000–5099 and the
101st fails with the cursor reset to 5000. -/
theorem port_allocator_correct :
    (∀ (busy : Nat → Bool) (cursor p c' : Nat), cursor ≤ 5100 →
       find_available_port busy cursor = (some p, c') →
       cursor ≤ p ∧ p ≤ 5099 ∧ busy p = false
       ∧ (∀ r, cursor ≤ r → r < p → busy r = true) ∧ c' = p + 1)
    ∧ (∀ (busy : Nat → Bool) (cursor c' : Nat),
       find_available_port busy cursor = (none, c') →
       c' = 5000 ∧ ∀ r, cursor ≤ r → r < 5100 → busy r = true)
    ∧ (∀ (busy busy' : Nat → Bool) (cursor p c₁ p' c₂ : Nat),
       find_available_port busy cursor = (some p, c₁) →
       find_available_port busy' c₁ = (some p', c₂) → p < p')
    ∧ allocSeq 101 (fun _ => false) 5000
        = ((List.range' 5000 100).map some ++ [none], 5000) := by
  have hsome : ∀ (busy : Nat → Bool) (cursor p c' : Nat),
      find_available_port busy cursor = (some p, c') →
      cursor ≤ p ∧ p < cursor + (5100 - cursor) ∧ busy p = false
      ∧ (∀ r, cursor ≤ r → r < p → busy r = true) ∧ c' = p + 1 := by
    intro busy cursor p c' h
    unfold find_available_port at h
    cases hf : first_free busy cursor (5100 - cursor) with
    | none => rw [hf] at h; cases h
    | some q =>
      rw [hf] at h
      cases h
      obtain ⟨h1, h2, h3, h4⟩ := first_free_some _ _ _ hf
      exact ⟨h1, h2, h3, h4, rfl⟩
  refine ⟨?_, ?_, ?_, by decide⟩
  · intro busy cursor p c' hc h
    obtain ⟨h1, h2, h3, h4, h5⟩ := hsome busy cursor p c' h
    exact ⟨h1, by omega, h3, h4, h5⟩
  · intro busy cursor c' h
    unfold find_available_port at h
    cases hf : first_free busy cursor (5100 - cursor) with
    | some q => rw [hf] at h; cases h
    | none =>
      rw [hf] at h
      cases h
      refine ⟨rfl, fun r h1 h2 => first_free_none _ _ hf r h1 (by omega)⟩
  · intro busy busy' cursor p c₁ p' c₂ h h'
    obtain ⟨_, _, _, _, h5⟩ := hsome busy cursor p c₁ h
    obtain ⟨h1', _, _, _, _⟩ := hsome busy' c₁ p' c₂ h'
    omega

/-- Witness for C4 at concrete inputs: with ports 5000 and 5001 busy, the
allocator returns 5002 and advances the cursor to 5003; with every port busy
it fails and resets the cursor; two consecutive successes increase. -/
theorem port_allocator_correct_witness :
    (5000 ≤ 5002 ∧ 5002 ≤ 5099 ∧ (fun p => decide (p < 5002)) 5002 = false
      ∧ (∀ r, 5000 ≤ r → r < 5002 → (fun p => decide (p < 5002)) r = true) ∧ 5003 = 5002 + 1)
    ∧ (5000 = 5000 ∧ ∀ r, 5000 ≤ r → r < 5100 → (fun _ => true) r = true)
    ∧ 5000 < 5001 :=
  ⟨port_allocator_correct.1 (fun p => decide (p < 5002)) 5000 5002 5003 (by omega) (by decide),
   port_allocator_correct.2.1 (fun _ => true) 5000 5000 (by decide),
   port_allocator_correct.2.2.1 (fun _ => false) (fun _ => false) 5000 5000 5001 5001 5002
     (by decide) (by decide)⟩

theorem handle_find_one_success_of_mem {c : Collection} {q : Doc} (p : DBVal × Doc)
    (hp : p ∈ c) (hm : match_query p.2 q = true) :
    (handle_find_one c q).success = true := by
  unfold handle_find_one
  cases hf : c.find? (fun p => match_query p.2 q) with
  | some _ => simp [DBResult.success]
  | none =>
    rw [List.find?_eq_none] at hf
    exact absurd hm (by simpa using hf p hp)

theorem mem_dictSet_self {κ α : Type} [DecidableEq κ] (c : List (κ × α)) (k : κ) (v : α) :
    (k, v) ∈ dictSet c k v := by
  induction c with
  | nil => simp [dictSet]
  | cons p t ih =>
    by_cases hk : p.1 = k
    · simp [dictSet, hk]
    · simp [dictSet, hk, ih]

theorem dictGet?_dictSet_of_ne {κ α : Type} [DecidableEq κ] (c : List (κ × α)) (k k' : κ)
    (v : α) (h : k' ≠ k) : dictGet? (dictSet c k v) k' = dictGet? c k' := by
  induction c with
  | nil =>
    simp only [dictSet, dictGet?]
    rw [if_neg (fun he => h he.symm)]
  | cons p t ih =>
    by_cases hk : p.1 = k
    · have hpk : ¬(p.1 = k') := by rw [hk]; exact fun he => h he.symm
      simp only [dictSet, if_pos hk, dictGet?]
      rw [if_neg (fun he => h he.symm), if_neg hpk]
    · simp only [dictSet, if_neg hk, dictGet?]
      by_cases hk' : p.1 = k'
      · simp [hk']
      · simp [hk', ih]

/-- C5 counterexample: when the Game insert into the Catalog fails after the
files were staged and validated, the staging directory has already been moved
to `uploads/chat_1.0/`, so the Gateway replies with an error yet the promoted
directory remains — contradicting the claim that any failure after the ready
reply leaves no promoted `uploads/<name>_<version>/` directory. -/
theorem upload_insert_failure_leaves_promoted_dir :
    (handle_upload_game DBState.empty ⟨false, []⟩ "d1" "alice" "chat" (some 3)
        (fun _ => .ok "f") ["game_info.json", "server.py", "client.py"]
        (.parsed demoManifest) false true "g1" "v1" "T").resp
      = some ⟨false, some "Failed to save game to database", none⟩
    ∧ (handle_upload_game DBState.empty ⟨false, []⟩ "d1" "alice" "chat" (some 3)
        (fun _ => .ok "f") ["game_info.json", "server.py", "client.py"]
        (.parsed demoManifest) false true "g1" "v1" "T").fs.uploads = ["chat_1.0"]
    ∧ (handle_upload_game DBState.empty ⟨false, []⟩ "d1" "alice" "chat" (some 3)
        (fun _ => .ok "f") ["game_info.json", "server.py", "client.py"]
        (.parsed demoManifest) false true "g1" "v1" "T").fs.temp = false := by
  refine ⟨by decide, by decide, by decide⟩

theorem find_one_name_after_game_insert (g : Collection)
    (gname dev_id dev_name freshG now : String) (lv dsc mnp mxp : DBVal) :
    (handle_find_one
      (dictSet g (DBVal.s freshG)
        (dictSet (dictSet
          [("name", DBVal.s gname), ("developer_id", DBVal.s dev_id),
           ("developer_name", DBVal.s dev_name), ("latest_version", lv),
           ("description", dsc), ("min_players", mnp), ("max_players", mxp),
           ("status", DBVal.s "active")] "_id" (DBVal.s freshG)) "created_at" (DBVal.s now)))
      [("name", DBVal.s gname)]).success = true := by
  apply handle_find_one_success_of_mem _ (mem_dictSet_self _ _ _)
  simp only [match_query, List.all_cons, List.all_nil, Bool.and_true]
  rw [dictGet?_dictSet_of_ne _ _ _ _ (by decide), dictGet?_dictSet_of_ne _ _ _ _ (by decide)]
  simp [dictGet?]

theorem find_one_filepath_after_version_insert (vcoll : Collection)
    (freshV now final_dir : String) (gid vv : DBVal) :
    (handle_find_one
      (dictSet vcoll (DBVal.s freshV)
        (dictSet (dictSet
          [("game_id", gid), ("version", vv), ("file_path", DBVal.s final_dir)]
          "_id" (DBVal.s freshV)) "created_at" (DBVal.s now)))
      [("file_path", DBVal.s final_dir)]).success = true := by
  apply handle_find_one_success_of_mem _ (mem_dictSet_self _ _ _)
  simp only [match_query, List.all_cons, List.all_nil, Bool.and_true]
  rw [dictGet?_dictSet_of_ne _ _ _ _ (by decide), dictGet?_dictSet_of_ne _ _ _ _ (by decide)]
  simp [dictGet?]

/-- C5 (amended): after the ready reply, a failure caused by a bad file frame
or by package validation purges the staging directory, promotes nothing,
leaves the Catalog unchanged, and replies `{success: false, error}`; but when
the failure is the Game insert into the Catalog, the staging directory has
already been moved to `uploads/<G>_<ver>/` and that directory remains while
the Gateway replies `{success: false, error}`; only when the Game insert
succeeds does the Gateway reply success, with a Game record inserted and a
Version record inserted when that insert's transport succeeds (its result is
not checked). -/
theorem upload_cleanup_semantics
    (db : DBState) (fs : GatewayFS) (dev_id dev_name game_name : String)
    (frames : Nat → FrameRes) (pkgFiles : List String) (jsonRead : JsonRead)
    (vOk : Bool) (freshG freshV now : String) (k : Nat)
    (hname : ¬(game_name = ""))
    (hdup : (handle_find_one db.game [("name", .s game_name)]).success = false)
    (hk0 : ¬(k = 0)) :
    (∀ (gOk : Bool) i, (List.range k).find? (fun j => !(frames j).isOk) = some i →
      handle_upload_game db fs dev_id dev_name game_name (some k) frames pkgFiles jsonRead
          gOk vOk freshG freshV now
        = ⟨⟨false, fs.uploads⟩, db, some ⟨false, some (frames i).errMsg, none⟩, true⟩)
    ∧ (∀ (gOk : Bool) e, (List.range k).find? (fun j => !(frames j).isOk) = none →
      validate_game_package pkgFiles jsonRead = .error e →
      handle_upload_game db fs dev_id dev_name game_name (some k) frames pkgFiles jsonRead
          gOk vOk freshG freshV now
        = ⟨⟨false, fs.uploads⟩, db,
           some ⟨false, some ("Invalid game package: " ++ e), none⟩, true⟩)
    ∧ (∀ m, (List.range k).find? (fun j => !(frames j).isOk) = none →
      validate_game_package pkgFiles jsonRead = .ok m →
      (handle_upload_game db fs dev_id dev_name game_name (some k) frames pkgFiles jsonRead
          false vOk freshG freshV now).fs.temp = false
      ∧ (game_name ++ "_" ++ renderVal ((dictGet? m.fields "version").getD .nil))
          ∈ (handle_upload_game db fs dev_id dev_name game_name (some k) frames pkgFiles
              jsonRead false vOk freshG freshV now).fs.uploads
      ∧ (handle_upload_game db fs dev_id dev_name game_name (some k) frames pkgFiles jsonRead
          false vOk freshG freshV now).db = db
      ∧ (handle_upload_game db fs dev_id dev_name game_name (some k) frames pkgFiles jsonRead
          false vOk freshG freshV now).resp
        = some ⟨false, some "Failed to save game to database", none⟩)
    ∧ (∀ m, (List.range k).find? (fun j => !(frames j).isOk) = none →
      validate_game_package pkgFiles jsonRead = .ok m →
      (handle_upload_game db fs dev_id dev_name game_name (some k) frames pkgFiles jsonRead
          true vOk freshG freshV now).fs.temp = false
      ∧ (game_name ++ "_" ++ renderVal ((dictGet? m.fields "version").getD .nil))
          ∈ (handle_upload_game db fs dev_id dev_name game_name (some k) frames pkgFiles
              jsonRead true vOk freshG freshV now).fs.uploads
      ∧ (∃ r, (handle_upload_game db fs dev_id dev_name game_name (some k) frames pkgFiles
              jsonRead true vOk freshG freshV now).resp = some r ∧ r.success = true)
      ∧ (handle_find_one
            (handle_upload_game db fs dev_id dev_name game_name (some k) frames pkgFiles
              jsonRead true vOk freshG freshV now).db.game
            [("name", .s game_name)]).success = true
      ∧ (vOk = true →
          (handle_find_one
            (handle_upload_game db fs dev_id dev_name game_name (some k) frames pkgFiles
              jsonRead true vOk freshG freshV now).db.version
            [("file_path",
              .s (game_name ++ "_"
                  ++ renderVal ((dictGet? m.fields "version").getD .nil)))]).success
          = true)) := by
  have hmemfinal : ∀ (u : List String) (d : String),
      d ∈ (if u.contains d then u else u ++ [d]) := by
    intro u d
    by_cases hc : u.contains d
    · rw [if_pos hc]
      exact List.mem_of_elem_eq_true hc
    · rw [if_neg hc]
      simp
  refine ⟨?_, ?_, ?_, ?_⟩
  · intro gOk i hfind
    simp [handle_upload_game, hname, hdup, hk0, hfind]
  · intro gOk e hfind hval
    simp [handle_upload_game, hname, hdup, hk0, hfind, hval]
  · intro m hfind hval
    refine ⟨?_, ?_, ?_, ?_⟩
    · simp [handle_upload_game, hname, hdup, hk0, hfind, hval]
    · simp only [handle_upload_game, if_neg hname, hdup, Bool.false_eq_true, if_false,
        if_neg hk0, hfind, hval]
      exact hmemfinal _ _
    · simp [handle_upload_game, hname, hdup, hk0, hfind, hval]
    · simp [handle_upload_game, hname, hdup, hk0, hfind, hval]
  · intro m hfind hval
    refine ⟨?_, ?_, ?_, ?_, ?_⟩
    · simp [handle_upload_game, hname, hdup, hk0, hfind, hval]
    · simp only [handle_upload_game, if_neg hname, hdup, Bool.false_eq_true, if_false,
        if_neg hk0, hfind, hval, if_true]
      exact hmemfinal _ _
    · simp only [handle_upload_game, if_neg hname, hdup, Bool.false_eq_true, if_false,
        if_neg hk0, hfind, hval, if_true]
      exact ⟨_, rfl, rfl⟩
    · simp only [handle_upload_game, if_neg hname, hdup, Bool.false_eq_true, if_false,
        if_neg hk0, hfind, hval, if_true]
      by_cases hv : vOk = true
      · simp only [hv, if_true]
        exact find_one_name_after_game_insert db.game game_name dev_id dev_name freshG now _ _ _ _
      · simp only [hv, if_false]
        exact find_one_name_after_game_insert db.game game_name dev_id dev_name freshG now _ _ _ _
    · intro hv
      simp only [handle_upload_game, if_neg hname, hdup, Bool.false_eq_true, if_false,
        if_neg hk0, hfind, hval, if_true, hv]
      exact find_one_filepath_after_version_insert db.version freshV now _ _ _

/-- Witness for C5's amended theorem at a concrete failing conversation:
package validation fails (missing `server.entry_point`), the staging
directory is purged, nothing is promoted, the Catalog is untouched, and the
reply is an error. -/
theorem upload_cleanup_semantics_witness :
    handle_upload_game DBState.empty ⟨false, ["other_1.0"]⟩ "d1" "alice" "chat" (some 1)
        (fun _ => .ok "game_info.json") ["game_info.json"]
        (.parsed ⟨[("name", .s "chat"), ("version", .s "1.0"), ("description", .s "d"),
                   ("min_players", .n 2), ("max_players", .n 2)],
                  some ⟨none, none, none⟩, none⟩)
        true true "g1" "v1" "T"
      = ⟨⟨false, ["other_1.0"]⟩, DBState.empty,
         some ⟨false, some "Invalid game package: Missing server.entry_point", none⟩, true⟩ :=
  (upload_cleanup_semantics DBState.empty ⟨false, ["other_1.0"]⟩ "d1" "alice" "chat"
      (fun _ => .ok "game_info.json") ["game_info.json"]
      (.parsed ⟨[("name", .s "chat"), ("version", .s "1.0"), ("description", .s "d"),
                 ("min_players", .n 2), ("max_players", .n 2)],
                some ⟨none, none, none⟩, none⟩)
      true "g1" "v1" "T" 1 (by decide) (by decide) (by decide)).2.1
    true "Missing server.entry_point" (by decide) rfl
theorem headD_mem {α : Type} (ps : List α) (d : α) (h : ps ≠ []) : ps.headD d ∈ ps := by
  cases ps with
  | nil => exact absurd rfl h
  | cons a t => simp [List.headD]

theorem dictGet?_mem {κ α : Type} [DecidableEq κ] {l : List (κ × α)} {k : κ} {v : α}
    (h : dictGet? l k = some v) : (k, v) ∈ l := by
  induction l with
  | nil => simp [dictGet?] at h
  | cons p t ih =>
    obtain ⟨pk, pv⟩ := p
    by_cases hk : pk = k
    · subst hk
      simp only [dictGet?, if_pos rfl] at h
      cases h
      exact List.mem_cons_self _ _
    · simp only [dictGet?, if_neg hk] at h
      exact List.mem_cons_of_mem _ (ih h)

theorem not_has_of_dictHas_false {κ α : Type} [DecidableEq κ] {l : List (κ × α)} {k : κ}
    (h : dictHas l k = false) : k ∉ l.map Prod.fst := by
  induction l with
  | nil => simp
  | cons p t ih =>
    simp only [dictHas, Bool.or_eq_false_iff, decide_eq_false_iff_not] at h
    simp only [List.map_cons, List.mem_cons]
    rintro (he | he)
    · exact h.1 he.symm
    · exact ih h.2 he

theorem dictSet_append_of_not_has {κ α : Type} [DecidableEq κ] {l : List (κ × α)} {k : κ}
    (v : α) (h : dictHas l k = false) : dictSet l k v = l ++ [(k, v)] := by
  induction l with
  | nil => rfl
  | cons p t ih =>
    simp only [dictHas, Bool.or_eq_false_iff, decide_eq_false_iff_not] at h
    simp [dictSet, h.1, ih h.2]

theorem dictHas_exists {κ α : Type} [DecidableEq κ] {l : List (κ × α)} {k : κ}
    (h : dictHas l k = true) : ∃ v, (k, v) ∈ l := by
  induction l with
  | nil => simp [dictHas] at h
  | cons p t ih =>
    by_cases hk : p.1 = k
    · exact ⟨p.2, by simp [← hk]⟩
    · simp only [dictHas, Bool.or_eq_true, decide_eq_true_eq] at h
      rcases h with h | h
      · exact absurd h hk
      · obtain ⟨v, hv⟩ := ih h
        exact ⟨v, List.mem_cons_of_mem _ hv⟩

/-- Decomposition of a keyed update at an existing key with unique keys. -/
theorem dictSet_decomp {κ α : Type} [DecidableEq κ] {l : List (κ × α)} {k : κ} {a : α}
    (hkeys : (l.map Prod.fst).Nodup) (hmem : (k, a) ∈ l) (b : α) :
    ∃ l1 l2, l = l1 ++ (k, a) :: l2 ∧ dictSet l k b = l1 ++ (k, b) :: l2 := by
  induction l with
  | nil => simp at hmem
  | cons p t ih =>
    rcases List.mem_cons.mp hmem with he | hmem'
    · refine ⟨[], t, by simp [← he], ?_⟩
      simp only [dictSet, ← he]
      simp
    · have hk : ¬(p.1 = k) := by
        intro hpk
        have : k ∈ t.map Prod.fst :=
          List.mem_map.mpr ⟨(k, a), hmem', rfl⟩
        simp only [List.map_cons, List.nodup_cons] at hkeys
        exact hkeys.1 (hpk ▸ this)
      have hkeys' : (t.map Prod.fst).Nodup := by
        simp only [List.map_cons, List.nodup_cons] at hkeys
        exact hkeys.2
      obtain ⟨l1, l2, he1, he2⟩ := ih hkeys' hmem'
      exact ⟨p :: l1, l2, by simp [he1], by simp [dictSet, hk, he2]⟩

theorem flatten_map_sublist_of_filterMap {α β : Type} (f : α → Option α) (g : α → List β)
    (hf : ∀ x y, f x = some y → List.Sublist (g y) (g x)) (l : List α) :
    List.Sublist ((l.filterMap f).map g).flatten (l.map g).flatten := by
  induction l with
  | nil => simp
  | cons x t ih =>
    cases hx : f x with
    | none =>
      simp only [List.filterMap_cons, hx, List.map_cons, List.flatten_cons]
      exact ih.trans (List.sublist_append_right _ _)
    | some y =>
      simp only [List.filterMap_cons, hx, List.map_cons, List.flatten_cons]
      exact List.Sublist.append (hf x y hx) ih

theorem map_fst_sublist_of_filterMap {α κ β : Type} (f : (κ × α) → Option (κ × β))
    (hf : ∀ x y, f x = some y → y.1 = x.1) (l : List (κ × α)) :
    List.Sublist ((l.filterMap f).map Prod.fst) (l.map Prod.fst) := by
  induction l with
  | nil => simp
  | cons x t ih =>
    cases hx : f x with
    | none =>
      simp only [List.filterMap_cons, hx, List.map_cons]
      exact ih.trans (List.sublist_cons_self _ _)
    | some y =>
      simp only [List.filterMap_cons, hx, List.map_cons]
      rw [hf x y hx]
      exact List.Sublist.cons₂ _ ih

theorem dictErase_sublist {κ α : Type} [DecidableEq κ] (l : List (κ × α)) (k : κ) :
    List.Sublist (dictErase l k) l := by
  induction l with
  | nil => simp [dictErase]
  | cons p t ih =>
    by_cases hk : p.1 = k
    · simp only [dictErase, if_pos hk]
      exact List.sublist_cons_self _ _
    · simp only [dictErase, if_neg hk]
      exact List.Sublist.cons₂ _ ih

theorem flatten_map_sublist {α β : Type} (g : α → List β) {l l' : List α}
    (h : List.Sublist l' l) : List.Sublist ((l'.map g).flatten) ((l.map g).flatten) := by
  induction h with
  | slnil => simp
  | cons x _ ih =>
    simp only [List.map_cons, List.flatten_cons]
    exact ih.trans (List.sublist_append_right _ _)
  | cons₂ x _ ih =>
    simp only [List.map_cons, List.flatten_cons]
    exact List.Sublist.append (List.Sublist.refl _) ih

theorem roomsWF_dictSet_replace {l : List (String × Room)} {rid : String} {room room' : Room}
    (h : roomsWF l) (hmem : (rid, room) ∈ l)
    (hhost : room'.host_id ∈ room'.players)
    (hlen : (room'.players.length : Int) ≤ room'.max_players)
    (hne : room'.players ≠ [])
    (hpl : List.Sublist room'.players room.players
       ∨ ∃ u, room'.players = room.players ++ [u] ∧ ∀ pr ∈ l, u ∉ pr.2.players) :
    roomsWF (dictSet l rid room') := by
  obtain ⟨hAll, hFlat, hKeys⟩ := h
  obtain ⟨l1, l2, hdec, hset⟩ := dictSet_decomp hKeys hmem room'
  rw [hset]
  subst hdec
  refine ⟨?_, ?_, ?_⟩
  · intro pr hpr
    rcases List.mem_append.mp hpr with h1 | h2
    · exact hAll pr (List.mem_append.mpr (Or.inl h1))
    · rcases List.mem_cons.mp h2 with he | h3
      · rw [he]
        exact ⟨hhost, hlen, hne⟩
      · exact hAll pr (List.mem_append.mpr (Or.inr (List.mem_cons.mpr (Or.inr h3))))
  · simp only [List.map_append, List.map_cons, List.flatten_append, List.flatten_cons] at hFlat ⊢
    rcases hpl with hsub | ⟨u, hu, hufresh⟩
    · exact List.Sublist.nodup
        (List.Sublist.append (List.Sublist.refl _)
          (List.Sublist.append hsub (List.Sublist.refl _))) hFlat
    · rw [hu, List.append_assoc, List.singleton_append, ← List.append_assoc,
        List.nodup_middle, List.nodup_cons]
      constructor
      · intro humem
        rcases List.mem_append.mp humem with hA2 | hB
        · rcases List.mem_append.mp hA2 with hA | hps
          · obtain ⟨s, hs, hus⟩ := List.mem_flatten.mp hA
            obtain ⟨pr, hpr, hspr⟩ := List.mem_map.mp hs
            exact hufresh pr (List.mem_append.mpr (Or.inl hpr)) (hspr ▸ hus)
          · exact hufresh (rid, room)
              (List.mem_append.mpr (Or.inr (List.mem_cons.mpr (Or.inl rfl)))) hps
        · obtain ⟨s, hs, hus⟩ := List.mem_flatten.mp hB
          obtain ⟨pr, hpr, hspr⟩ := List.mem_map.mp hs
          exact hufresh pr
            (List.mem_append.mpr (Or.inr (List.mem_cons.mpr (Or.inr hpr)))) (hspr ▸ hus)
      · rw [List.append_assoc]
        exact hFlat
  · simp only [List.map_append, List.map_cons] at hKeys ⊢
    exact hKeys

/-- The same-signature special case: status/process/port/log/version updates
never disturb the invariant. -/
theorem roomsWF_dictSet_samesig {l : List (String × Room)} {rid : String} {room room' : Room}
    (h : roomsWF l) (hmem : (rid, room) ∈ l)
    (hp : room'.players = room.players) (hh : room'.host_id = room.host_id)
    (hm : room'.max_players = room.max_players) :
    roomsWF (dictSet l rid room') := by
  obtain ⟨hhost, hlen, hne⟩ := h.1 (rid, room) hmem
  exact roomsWF_dictSet_replace h hmem (by rw [hp, hh]; exact hhost)
    (by rw [hp, hm]; exact hlen) (by rw [hp]; exact hne)
    (Or.inl (by rw [hp]))

theorem roomsWF_sublist {l l' : List (String × Room)} (h : roomsWF l)
    (hs : List.Sublist l' l) : roomsWF l' := by
  obtain ⟨hAll, hFlat, hKeys⟩ := h
  refine ⟨fun pr hpr => hAll pr (hs.subset hpr), ?_, ?_⟩
  · exact List.Sublist.nodup (flatten_map_sublist _ hs) hFlat
  · exact List.Sublist.nodup (List.Sublist.map _ hs) hKeys

theorem roomsWF_dictErase {l : List (String × Room)} (h : roomsWF l) (rid : String) :
    roomsWF (dictErase l rid) :=
  roomsWF_sublist h (dictErase_sublist l rid)

theorem roomsWF_dictSet_fresh {l : List (String × Room)} {rid : String} {room' : Room}
    (h : roomsWF l)
    (hfresh : ∀ pr ∈ l, ∀ u ∈ room'.players, u ∉ pr.2.players)
    (hhost : room'.host_id ∈ room'.players)
    (hlen : (room'.players.length : Int) ≤ room'.max_players)
    (hne : room'.players ≠ [])
    (hnodup : room'.players.Nodup) :
    roomsWF (dictSet l rid room') := by
  obtain ⟨hAll, hFlat, hKeys⟩ := h
  cases hhas : dictHas l rid with
  | false =>
    rw [dictSet_append_of_not_has _ hhas]
    refine ⟨?_, ?_, ?_⟩
    · intro pr hpr
      rcases List.mem_append.mp hpr with h1 | h2
      · exact hAll pr h1
      · rcases List.mem_cons.mp h2 with he | h3
        · rw [he]; exact ⟨hhost, hlen, hne⟩
        · simp at h3
    · simp only [List.map_append, List.map_cons, List.map_nil, List.flatten_append,
        List.flatten_cons, List.flatten_nil, List.append_nil]
      refine List.Nodup.append hFlat hnodup ?_
      intro u hu hu'
      obtain ⟨s, hs, hus⟩ := List.mem_flatten.mp hu
      obtain ⟨pr, hpr, hspr⟩ := List.mem_map.mp hs
      exact hfresh pr hpr u hu' (hspr ▸ hus)
    · simp only [List.map_append, List.map_cons, List.map_nil]
      refine List.Nodup.append hKeys (by simp) ?_
      intro x hx hx'
      simp only [List.mem_cons, List.not_mem_nil, or_false] at hx'
      exact (not_has_of_dictHas_false (by simpa using hhas)) (hx' ▸ hx)
  | true =>
    obtain ⟨a, hmem⟩ := dictHas_exists hhas
    obtain ⟨l1, l2, hdec, hset⟩ := dictSet_decomp hKeys hmem room'
    rw [hset]
    subst hdec
    refine ⟨?_, ?_, ?_⟩
    · intro pr hpr
      rcases List.mem_append.mp hpr with h1 | h2
      · exact hAll pr (List.mem_append.mpr (Or.inl h1))
      · rcases List.mem_cons.mp h2 with he | h3
        · rw [he]; exact ⟨hhost, hlen, hne⟩
        · exact hAll pr (List.mem_append.mpr (Or.inr (List.mem_cons.mpr (Or.inr h3))))
    · simp only [List.map_append, List.map_cons, List.flatten_append, List.flatten_cons]
        at hFlat ⊢
      have hAB : (((l1.map fun pr => pr.2.players).flatten)
          ++ ((l2.map fun pr => pr.2.players).flatten)).Nodup := by
        refine List.Sublist.nodup ?_ hFlat
        exact List.Sublist.append (List.Sublist.refl _) (List.sublist_append_right _ _)
      have hdisj : ∀ u ∈ room'.players,
          u ∉ ((l1.map fun pr => pr.2.players).flatten)
            ++ ((l2.map fun pr => pr.2.players).flatten) := by
        intro u hu humem
        rcases List.mem_append.mp humem with hA | hB
        · obtain ⟨s, hs, hus⟩ := List.mem_flatten.mp hA
          obtain ⟨pr, hpr, hspr⟩ := List.mem_map.mp hs
          exact hfresh pr (List.mem_append.mpr (Or.inl hpr)) u hu (hspr ▸ hus)
        · obtain ⟨s, hs, hus⟩ := List.mem_flatten.mp hB
          obtain ⟨pr, hpr, hspr⟩ := List.mem_map.mp hs
          exact hfresh pr
            (List.mem_append.mpr (Or.inr (List.mem_cons.mpr (Or.inr hpr)))) u hu (hspr ▸ hus)
      rw [show ((l1.map fun pr => pr.2.players).flatten)
            ++ (room'.players ++ ((l2.map fun pr => pr.2.players).flatten))
          = ((l1.map fun pr => pr.2.players).flatten)
            ++ room'.players ++ ((l2.map fun pr => pr.2.players).flatten)
        from (List.append_assoc _ _ _).symm]
      rw [List.nodup_append]
      rw [List.nodup_append] at hAB
      refine ⟨List.Nodup.append hAB.1 hnodup ?_, hAB.2.1, ?_⟩
      · intro u hu hu'
        exact hdisj u hu' (List.mem_append.mpr (Or.inl hu))
      · intro u hu
        rcases List.mem_append.mp hu with hA | hr
        · exact hAB.2.2 hA
        · intro hB
          exact hdisj u hr (List.mem_append.mpr (Or.inr hB))
    · simp only [List.map_append, List.map_cons] at hKeys ⊢
      exact hKeys

theorem removeUserEntry_some_facts (sessions : List (UserId × String)) (uid : UserId)
    (pr pr' : String × Room) (h : removeUserEntry sessions uid pr = some pr') :
    pr'.1 = pr.1
    ∧ List.Sublist pr'.2.players pr.2.players
    ∧ pr'.2.max_players = pr.2.max_players
    ∧ (pr'.2.players = pr.2.players ∧ pr'.2.host_id = pr.2.host_id ∧ uid ∉ pr.2.players
       ∨ pr'.2.players = pr.2.players.erase uid ∧ pr.2.players.erase uid ≠ []
         ∧ (pr'.2.host_id = pr'.2.players.headD .nil
            ∨ pr'.2.host_id = pr.2.host_id ∧ pr.2.host_id ≠ uid)) := by
  simp only [removeUserEntry] at h
  by_cases h1 : uid ∈ pr.2.players
  · rw [if_pos h1] at h
    by_cases h2 : pr.2.players.erase uid = []
    · rw [if_pos h2] at h
      cases h
    · rw [if_neg h2] at h
      by_cases h3 : pr.2.host_id = uid
      · rw [if_pos h3] at h
        cases h
        refine ⟨rfl, by simpa using List.erase_sublist uid pr.2.players, rfl, Or.inr ?_⟩
        exact ⟨rfl, h2, Or.inl rfl⟩
      · rw [if_neg h3] at h
        cases h
        refine ⟨rfl, by simpa using List.erase_sublist uid pr.2.players, rfl, Or.inr ?_⟩
        exact ⟨rfl, h2, Or.inr ⟨rfl, h3⟩⟩
  · rw [if_neg h1] at h
    cases h
    exact ⟨rfl, List.Sublist.refl _, rfl, Or.inl ⟨rfl, rfl, h1⟩⟩

/-- `_remove_user_from_all_rooms` preserves the room invariants and leaves
the removed user in no room. -/
theorem remove_user_wf (st : LobbyState) (uid : UserId) (h : lobbyWF st) :
    lobbyWF (remove_user_from_all_rooms st uid)
    ∧ ∀ pr ∈ (remove_user_from_all_rooms st uid).rooms, uid ∉ pr.2.players := by
  obtain ⟨hAll, hFlat, hKeys⟩ := h
  have hPerRoom : ∀ pr ∈ st.rooms, pr.2.players.Nodup := by
    intro pr hpr
    exact (List.nodup_flatten.mp hFlat).1 _ (List.mem_map.mpr ⟨pr, hpr, rfl⟩)
  constructor
  · refine ⟨?_, ?_, ?_⟩
    · intro pr' hpr'
      obtain ⟨pr, hpr, hf⟩ := List.mem_filterMap.mp hpr'
      obtain ⟨hfst, hsub, hmax, hcases⟩ := removeUserEntry_some_facts _ _ _ _ hf
      obtain ⟨hhost, hlen, hne⟩ := hAll pr hpr
      rcases hcases with ⟨hp, hh, _⟩ | ⟨hp, hne', hh⟩
      · exact ⟨by rw [hp, hh]; exact hhost, by rw [hp, hmax]; exact hlen,
          by rw [hp]; exact hne⟩
      · refine ⟨?_, ?_, by rw [hp]; exact hne'⟩
        · rcases hh with hh1 | ⟨hh2, hh3⟩
          · rw [hh1]
            exact headD_mem _ _ (by rw [hp]; exact hne')
          · rw [hh2, hp]
            exact (List.mem_erase_of_ne hh3).mpr hhost
        · have hle : pr'.2.players.length ≤ pr.2.players.length := by
            rw [hp]
            exact List.length_erase_le _ _
          calc (pr'.2.players.length : Int) ≤ (pr.2.players.length : Int) := by
                exact_mod_cast hle
            _ ≤ pr.2.max_players := hlen
            _ = pr'.2.max_players := hmax.symm
    · exact List.Sublist.nodup
        (flatten_map_sublist_of_filterMap _ _
          (fun x y hxy => (removeUserEntry_some_facts _ _ _ _ hxy).2.1) _) hFlat
    · exact List.Sublist.nodup
        (map_fst_sublist_of_filterMap _
          (fun x y hxy => (removeUserEntry_some_facts _ _ _ _ hxy).1) _) hKeys
  · intro pr' hpr'
    obtain ⟨pr, hpr, hf⟩ := List.mem_filterMap.mp hpr'
    obtain ⟨_, _, _, hcases⟩ := removeUserEntry_some_facts _ _ _ _ hf
    rcases hcases with ⟨hp, _, hnot⟩ | ⟨hp, _, _⟩
    · rw [hp]
      exact hnot
    · rw [hp]
      exact List.Nodup.not_mem_erase (hPerRoom pr hpr)

theorem lobby_find_one_mem {c : Collection} {q : Doc} {d : Doc}
    (h : lobby_find_one c q = some d) : ∃ k, (k, d) ∈ c := by
  unfold lobby_find_one handle_find_one at h
  cases hf : c.find? (fun p => match_query p.2 q) with
  | none => rw [hf] at h; cases h
  | some p =>
    rw [hf] at h
    cases h
    exact ⟨p.1, List.mem_of_find?_eq_some hf⟩

theorem handle_login_rooms (st : LobbyState) (db : DBState) (sess : ConnSession)
    (hash : String → String) (u p : String) :
    (handle_login st db sess hash u p).1.rooms = st.rooms := by
  unfold handle_login
  repeat' split
  all_goals rfl

theorem cleanup_session_wf (st : LobbyState) (uid : UserId) (h : lobbyWF st) :
    lobbyWF (cleanup_session st uid)
    ∧ ∀ pr ∈ (cleanup_session st uid).rooms, uid ∉ pr.2.players :=
  remove_user_wf { st with sessions := dictErase st.sessions uid } uid h

theorem handle_create_room_wf (st : LobbyState) (db : DBState) (sess : ConnSession)
    (g rid : String) (h : lobbyWF st) (hdb : gamesMaxOK db = true) :
    lobbyWF (handle_create_room st db sess g rid).1 := by
  unfold handle_create_room
  split
  · exact h
  · obtain ⟨h1, h2⟩ := remove_user_wf st sess.user_id h
    split
    · exact h1
    · next game hfind =>
      split
      · next gid lv mx hgid hlv hmx =>
        refine roomsWF_dictSet_fresh h1 ?_ (by simp) ?_ (by simp) (by simp)
        · intro pr hpr u hu
          simp only [List.mem_singleton] at hu
          rw [hu]
          exact h2 pr hpr
        · obtain ⟨k, hk⟩ := lobby_find_one_mem hfind
          have hall := List.all_eq_true.mp hdb (k, game) hk
          rw [hmx] at hall
          simpa using of_decide_eq_true hall
      · exact h1

theorem handle_join_room_wf (st : LobbyState) (sess : ConnSession) (rid : String)
    (h : lobbyWF st) : lobbyWF (handle_join_room st sess rid).1 := by
  unfold handle_join_room
  split
  · exact h
  · dsimp only
    obtain ⟨h1, h2⟩ := remove_user_wf st sess.user_id h
    split
    · exact h1
    · next room hget =>
      have hmem := dictGet?_mem hget
      split
      · exact h1
      · split
        · exact h1
        · split
          · exact h1
          · next hfull hin =>
            obtain ⟨hhost, hlen, hne⟩ := h1.1 (rid, room) hmem
            refine roomsWF_dictSet_replace h1 hmem ?_ ?_ (by simp) ?_
            · exact List.mem_append.mpr (Or.inl hhost)
            · have hlt : (room.players.length : Int) < room.max_players := by
                simpa using lt_of_not_ge (by simpa using hfull)
              simp only [List.length_append, List.length_singleton]
              push_cast
              omega
            · exact Or.inr ⟨sess.user_id, rfl, h2⟩

theorem handle_leave_room_wf (st : LobbyState) (sess : ConnSession) (pe : Bool)
    (h : lobbyWF st) : lobbyWF (handle_leave_room st sess pe).1 := by
  unfold handle_leave_room
  split
  · exact h
  · next pr hfind =>
    have hmem : (pr.1, pr.2) ∈ st.rooms := List.mem_of_find?_eq_some hfind
    have huid : sess.user_id ∈ pr.2.players := by
      have := List.find?_some hfind
      simpa using this
    dsimp only
    split
    · exact roomsWF_dictErase h pr.1
    · next hne' =>
      split
      · next hhost =>
        have hhd : (pr.2.players.erase sess.user_id).headD .nil
            ∈ pr.2.players.erase sess.user_id := headD_mem _ _ hne'
        have hlenerase : ((pr.2.players.erase sess.user_id).length : Int)
            ≤ pr.2.max_players := by
          obtain ⟨_, hlen, _⟩ := h.1 (pr.1, pr.2) hmem
          calc ((pr.2.players.erase sess.user_id).length : Int)
              ≤ (pr.2.players.length : Int) := by
                exact_mod_cast List.length_erase_le _ _
            _ ≤ pr.2.max_players := hlen
        split
        · exact roomsWF_dictSet_replace h hmem hhd hlenerase hne'
            (Or.inl (List.erase_sublist _ _))
        · split
          · split
            · exact roomsWF_dictSet_replace h hmem hhd hlenerase hne'
                (Or.inl (List.erase_sublist _ _))
            · exact roomsWF_dictSet_replace h hmem hhd hlenerase hne'
                (Or.inl (List.erase_sublist _ _))
          · exact roomsWF_dictSet_replace h hmem hhd hlenerase hne'
              (Or.inl (List.erase_sublist _ _))
      · next hnothost =>
        obtain ⟨hhost, hlen, _⟩ := h.1 (pr.1, pr.2) hmem
        have hostin : pr.2.host_id ∈ pr.2.players.erase sess.user_id :=
          (List.mem_erase_of_ne (fun he => hnothost (by rw [he]))).mpr hhost
        refine roomsWF_dictSet_replace h hmem hostin ?_ hne'
          (Or.inl (List.erase_sublist _ _))
        calc ((pr.2.players.erase sess.user_id).length : Int)
            ≤ (pr.2.players.length : Int) := by
              exact_mod_cast List.length_erase_le _ _
          _ ≤ pr.2.max_players := hlen

theorem start_game_launch_wf (db : DBState) (env : StartEnv) (rid : String)
    (st1 : LobbyState) (room1 : Room) (h : lobbyWF st1)
    (hmem : (rid, room1) ∈ st1.rooms) :
    lobbyWF (start_game_launch db env rid st1 room1).1 := by
  unfold start_game_launch
  split
  · exact h
  · split
    · exact h
    · next latest _ =>
      dsimp only
      have h2 : roomsWF (dictSet st1.rooms rid { room1 with version := latest }) :=
        roomsWF_dictSet_samesig h hmem rfl rfl rfl
      have hmem2 : (rid, { room1 with version := latest })
          ∈ dictSet st1.rooms rid { room1 with version := latest } :=
        dictGet?_mem (dictGet?_dictSet_self _ _ _)
      split
      · exact h2
      · split
        · exact h2
        · split
          · exact h2
          · split
            · exact h2
            · split
              · exact h2
              · split
                · exact h2
                · split
                  · exact h2
                  · split
                    · exact roomsWF_dictSet_samesig h2 hmem2 rfl rfl rfl
                    · exact roomsWF_dictSet_samesig h2 hmem2 rfl rfl rfl

theorem handle_start_game_wf (st : LobbyState) (db : DBState) (sess : ConnSession)
    (env : StartEnv) (h : lobbyWF st) : lobbyWF (handle_start_game st db sess env).1 := by
  unfold handle_start_game
  split
  · exact h
  · next pr hfind =>
    have hmem : (pr.1, pr.2) ∈ st.rooms := List.mem_of_find?_eq_some hfind
    dsimp only
    split
    · exact h
    · split
      · split
        · refine start_game_launch_wf _ _ _ _ _ ?_ ?_
          · exact roomsWF_dictSet_samesig h hmem rfl rfl rfl
          · exact dictGet?_mem (dictGet?_dictSet_self _ _ _)
        · exact h
      · exact start_game_launch_wf _ _ _ _ _ h hmem

theorem handle_check_game_status_wf (st : LobbyState) (sess : ConnSession) (pe : Bool)
    (h : lobbyWF st) : lobbyWF (handle_check_game_status st sess pe).1 := by
  unfold handle_check_game_status
  split
  · exact h
  · next pr hfind =>
    have hmem : (pr.1, pr.2) ∈ st.rooms := List.mem_of_find?_eq_some hfind
    dsimp only
    split
    · split
      · exact roomsWF_dictSet_samesig h hmem rfl rfl rfl
      · exact h
    · exact h

theorem handle_end_game_wf (st : LobbyState) (sess : ConnSession)
    (h : lobbyWF st) : lobbyWF (handle_end_game st sess).1 := by
  unfold handle_end_game
  split
  · exact h
  · next pr hfind =>
    have hmem : (pr.1, pr.2) ∈ st.rooms := List.mem_of_find?_eq_some hfind
    dsimp only
    split
    · exact h
    · exact roomsWF_dictSet_samesig h hmem rfl rfl rfl

/-! Claim C1: the room invariants. -/

/-- C1 counterexample: `_handle_create_room` copies the Game's `max_players`
into the room unchecked, so from a well-formed Lobby a `create_room` against
a catalogued game with `max_players = 0` (package validation never bounds it)
produces a room with one player and capacity zero, breaking
`|players| ≤ max_players`. -/
theorem create_room_zero_capacity_violation :
    lobbyWF ⟨[(.s "u1", "alice")], [], 5000, [], []⟩
    ∧ ¬ lobbyWF (applyOp ⟨[(.s "u1", "alice")], [], 5000, [], []⟩
        ⟨[], [(.s "g1", [("_id", .s "g1"), ("name", .s "chat"), ("status", .s "active"),
                ("latest_version", .s "1.0"), ("max_players", .n 0)])], [], [], []⟩
        ⟨true, .s "u1", "alice"⟩ (fun s => s) (.create_room "chat" "r1")).st := by
  constructor
  · decide
  · decide

/-- C1 (amended): provided every catalogued Game's integer `max_players` is
at least 1, every Lobby operation (login, logout, disconnect cleanup,
create_room, join_room, leave_room, start_game, check_game_status, end_game,
and the read-only handlers) preserves the room invariants: `host_id ∈
players`, `|players| ≤ max_players`, no empty room survives, each user is in
at most one room, and room ids are unique. -/
theorem lobby_room_invariants (st : LobbyState) (db : DBState) (sess : ConnSession)
    (hash : String → String) (op : LobbyOp) (h : lobbyWF st) (hdb : gamesMaxOK db = true) :
    lobbyWF (applyOp st db sess hash op).st := by
  cases op with
  | login u p =>
    simp only [applyOp]
    show roomsWF (handle_login st db sess hash u p).1.rooms
    rw [handle_login_rooms]
    exact h
  | logout =>
    simp only [applyOp]
    split
    · exact (cleanup_session_wf st sess.user_id h).1
    · exact h
  | disconnect =>
    simp only [applyOp]
    split
    · exact (cleanup_session_wf st sess.user_id h).1
    · exact h
  | list_games =>
    simp only [applyOp]
    split <;> exact h
  | game_info g =>
    simp only [applyOp]
    split <;> exact h
  | download_game g fsE =>
    simp only [applyOp]
    split <;> exact h
  | list_rooms =>
    simp only [applyOp]
    split <;> exact h
  | create_room g rid =>
    simp only [applyOp]
    split
    · exact handle_create_room_wf st db sess g rid h hdb
    · exact h
  | join_room rid =>
    simp only [applyOp]
    split
    · exact handle_join_room_wf st sess rid h
    · exact h
  | leave_room pe =>
    simp only [applyOp]
    split
    · exact handle_leave_room_wf st sess pe h
    · exact h
  | start_game env =>
    simp only [applyOp]
    split
    · exact handle_start_game_wf st db sess env h
    · exact h
  | check_game_status pe =>
    simp only [applyOp]
    split
    · exact handle_check_game_status_wf st sess pe h
    · exact h
  | end_game =>
    simp only [applyOp]
    split
    · exact handle_end_game_wf st sess h
    · exact h
  | submit_review g rt cm fr nw =>
    simp only [applyOp]
    split <;> exact h

/-- Witness for C1's amended theorem: a `create_room` against a game with
`max_players = 2` keeps the invariants. -/
theorem lobby_room_invariants_witness :
    lobbyWF (applyOp ⟨[(.s "u1", "alice")], [], 5000, [], []⟩
        ⟨[], [(.s "g1", [("_id", .s "g1"), ("name", .s "chat"), ("status", .s "active"),
                ("latest_version", .s "1.0"), ("max_players", .n 2)])], [], [], []⟩
        ⟨true, .s "u1", "alice"⟩ (fun s => s) (.create_room "chat" "r1")).st :=
  lobby_room_invariants ⟨[(.s "u1", "alice")], [], 5000, [], []⟩
    ⟨[], [(.s "g1", [("_id", .s "g1"), ("name", .s "chat"), ("status", .s "active"),
            ("latest_version", .s "1.0"), ("max_players", .n 2)])], [], [], []⟩
    ⟨true, .s "u1", "alice"⟩ (fun s => s) (.create_room "chat" "r1")
    (by decide) (by decide)

/-! Claim C2: the is_host field of check_game_status. -/

/-- C2 (code-bug exhibit): for a logged-in member of a room whose status is
`in_game` while the game process has exited, `check_game_status` resets the
room to waiting but replies only `{success: true, game_started: false}` — no
`is_host` field, although the handler computes `is_host` fresh and its other
branches (and its own "always include room identity and host info" fix
comment) include it. -/
theorem check_game_status_reset_omits_is_host :
    (applyOp ⟨[(.s "u1", "alice"), (.s "u2", "bob")],
        [("r1", ⟨"r1", "chat", .s "g1", .s "1.0", .s "u1", "alice",
          [.s "u1", .s "u2"], 2, "in_game", some 99, some 5000, some 7⟩)],
        5001, [7], []⟩
      DBState.empty ⟨true, .s "u2", "bob"⟩ (fun s => s) (.check_game_status true)).resp
      = some ⟨true, [("game_started", .b false)], []⟩
    ∧ dictGet? [("game_started", DBVal.b false)] "is_host" = none
    ∧ dictGet? (applyOp ⟨[(.s "u1", "alice"), (.s "u2", "bob")],
        [("r1", ⟨"r1", "chat", .s "g1", .s "1.0", .s "u1", "alice",
          [.s "u1", .s "u2"], 2, "in_game", some 99, some 5000, some 7⟩)],
        5001, [7], []⟩
      DBState.empty ⟨true, .s "u2", "bob"⟩ (fun s => s) (.check_game_status true)).st.rooms
      "r1"
      = some ⟨"r1", "chat", .s "g1", .s "1.0", .s "u1", "alice",
          [.s "u1", .s "u2"], 2, "waiting", none, none, none⟩ := by
  refine ⟨by decide, by decide, by decide⟩

/-! Claim C6: closing the game log handle. -/

/-- C6 (code-bug exhibit): the cleanup run on a member's disconnect (and on
logout) destroys the room through `_remove_user_from_all_rooms`, which
terminates the process but never closes the room's open game-log handle —
handle 7 stays open after the room is gone, unlike the `leave_room` /
`start_game` / `check_game_status` / `end_game` paths, which all close it. -/
theorem room_destruction_leaks_log_handle :
    (applyOp ⟨[(.s "u1", "alice")],
        [("r1", ⟨"r1", "chat", .s "g1", .s "1.0", .s "u1", "alice",
          [.s "u1"], 2, "in_game", some 99, some 5000, some 7⟩)],
        5001, [7], []⟩
      DBState.empty ⟨true, .s "u1", "alice"⟩ (fun s => s) .disconnect).st.rooms = []
    ∧ (applyOp ⟨[(.s "u1", "alice")],
        [("r1", ⟨"r1", "chat", .s "g1", .s "1.0", .s "u1", "alice",
          [.s "u1"], 2, "in_game", some 99, some 5000, some 7⟩)],
        5001, [7], []⟩
      DBState.empty ⟨true, .s "u1", "alice"⟩ (fun s => s) .disconnect).st.openLogs = [7]
    ∧ (applyOp ⟨[(.s "u1", "alice")],
        [("r1", ⟨"r1", "chat", .s "g1", .s "1.0", .s "u1", "alice",
          [.s "u1"], 2, "in_game", some 99, some 5000, some 7⟩)],
        5001, [7], []⟩
      DBState.empty ⟨true, .s "u1", "alice"⟩ (fun s => s) .logout).st.openLogs = [7]
    ∧ (applyOp ⟨[(.s "u1", "alice")],
        [("r1", ⟨"r1", "chat", .s "g1", .s "1.0", .s "u1", "alice",
          [.s "u1"], 2, "in_game", some 99, some 5000, some 7⟩)],
        5001, [7], []⟩
      DBState.empty ⟨true, .s "u1", "alice"⟩ (fun s => s) (.leave_room true)).st.openLogs
      = [] := by
  refine ⟨by decide, by decide, by decide, by decide⟩

/-! Claim C7: start_game floats the room to the current latest version. -/

theorem lobby_find_one_match {c : Collection} {q d : Doc}
    (h : lobby_find_one c q = some d) : match_query d q = true := by
  unfold lobby_find_one handle_find_one at h
  cases hf : c.find? (fun p => match_query p.2 q) with
  | none => rw [hf] at h; cases h
  | some pfound =>
    rw [hf] at h
    cases h
    have hp := List.find?_some hf
    exact hp

theorem match_query_field {d q : Doc} {k : String} {v : DBVal}
    (h : match_query d q = true) (hm : (k, v) ∈ q) : dictGet? d k = some v :=
  of_decide_eq_true (List.all_eq_true.mp h (k, v) hm)

theorem start_game_launch_success (db : DBState) (env : StartEnv) (rid : String)
    (st1 : LobbyState) (room1 : Room) (r : LResp)
    (hresp : (start_game_launch db env rid st1 room1).2 = some r)
    (hsucc : r.success = true) :
    ∃ game latest vinfo fp m sc ep port,
      lobby_find_one db.game [("_id", room1.game_id), ("status", .s "active")] = some game
      ∧ dictGet? game "latest_version" = some latest
      ∧ lobby_find_one db.version [("game_id", room1.game_id), ("version", latest)]
          = some vinfo
      ∧ dictGet? vinfo "version" = some latest
      ∧ dictGet? vinfo "file_path" = some fp
      ∧ dictGet? r.fields "version" = some latest
      ∧ (∃ rm, dictGet? (start_game_launch db env rid st1 room1).1.rooms rid = some rm
            ∧ rm.version = latest ∧ rm.status = "in_game")
      ∧ env.manifest = some m ∧ m.server = some sc ∧ sc.entry_point = some ep
      ∧ (start_game_launch db env rid st1 room1).1.spawns = st1.spawns ++
          [([sc.start_command.getD "python",
             upload_dir ++ "/" ++ renderVal fp ++ "/" ++ ep]
            ++ (sc.arguments.getD []).map (fun a =>
                (a.replace "{PORT}" (toString port)).replace "{NUM_PLAYERS}"
                  (toString room1.players.length)), port)] := by
  rcases hout : start_game_launch db env rid st1 room1 with ⟨stO, respO⟩
  rw [hout] at hresp
  dsimp only at hresp ⊢
  unfold start_game_launch at hout
  split at hout
  · injection hout with h1 h2; subst h1; subst h2
    injection hresp with h3; subst h3
    simp [lerr] at hsucc
  · next game hgame =>
    dsimp only at hout
    split at hout
    · injection hout with h1 h2; subst h1; subst h2
      exact Option.noConfusion hresp
    · next latest hlatest =>
      split at hout
      · injection hout with h1 h2; subst h1; subst h2
        injection hresp with h3; subst h3
        simp [lerr] at hsucc
      · next vinfo hvinfo =>
        split at hout
        · injection hout with h1 h2; subst h1; subst h2
          exact Option.noConfusion hresp
        · next fp hfp =>
          split at hout
          · injection hout with h1 h2; subst h1; subst h2
            exact Option.noConfusion hresp
          · next manifest hman =>
            split at hout
            · injection hout with h1 h2; subst h1; subst h2
              injection hresp with h3; subst h3
              simp [lerr] at hsucc
            · next game_port cur' hport =>
              split at hout
              · injection hout with h1 h2; subst h1; subst h2
                exact Option.noConfusion hresp
              · next server_config hsc =>
                split at hout
                · injection hout with h1 h2; subst h1; subst h2
                  exact Option.noConfusion hresp
                · next ep hep =>
                  split at hout
                  · injection hout with h1 h2; subst h1; subst h2
                    injection hresp with h3; subst h3
                    simp [lerr] at hsucc
                  · split at hout
                    · injection hout with h1 h2; subst h1; subst h2
                      injection hresp with h3; subst h3
                      simp [lerr] at hsucc
                    · injection hout with h1 h2; subst h1; subst h2
                      injection hresp with h3; subst h3
                      refine ⟨game, latest, vinfo, fp, manifest, server_config, ep,
                        game_port, hgame, hlatest, hvinfo, ?_, hfp, rfl, ?_, hman, hsc,
                        hep, rfl⟩
                      · exact match_query_field (lobby_find_one_match hvinfo)
                          (by simp)
                      · exact ⟨_, dictGet?_dictSet_self _ _ _, rfl, rfl⟩

/-- C7: every successful `start_game` re-fetched the room's Game from the
Catalog, floated `room.version` to that Game's current `latest_version`,
looked up the Version record matching that `latest_version`, spawned the
server from that Version's directory, and replied with `version` equal to
that `latest_version` — so a room created before an update plays the updated
version. -/
theorem start_game_version_float (st : LobbyState) (db : DBState) (sess : ConnSession)
    (env : StartEnv) (pr : String × Room) (r : LResp)
    (hpr : st.rooms.find? (fun q => decide (sess.user_id ∈ q.2.players)) = some pr)
    (hresp : (handle_start_game st db sess env).2 = some r)
    (hsucc : r.success = true) :
    ∃ game latest vinfo fp m sc ep port,
      lobby_find_one db.game [("_id", pr.2.game_id), ("status", .s "active")] = some game
      ∧ dictGet? game "latest_version" = some latest
      ∧ lobby_find_one db.version [("game_id", pr.2.game_id), ("version", latest)]
          = some vinfo
      ∧ dictGet? vinfo "version" = some latest
      ∧ dictGet? vinfo "file_path" = some fp
      ∧ dictGet? r.fields "version" = some latest
      ∧ (∃ rm, dictGet? (handle_start_game st db sess env).1.rooms pr.1 = some rm
            ∧ rm.version = latest ∧ rm.status = "in_game")
      ∧ env.manifest = some m ∧ m.server = some sc ∧ sc.entry_point = some ep
      ∧ (handle_start_game st db sess env).1.spawns = st.spawns ++
          [([sc.start_command.getD "python",
             upload_dir ++ "/" ++ renderVal fp ++ "/" ++ ep]
            ++ (sc.arguments.getD []).map (fun a =>
                (a.replace "{PORT}" (toString port)).replace "{NUM_PLAYERS}"
                  (toString pr.2.players.length)), port)] := by
  rcases hout : handle_start_game st db sess env with ⟨stO, respO⟩
  rw [hout] at hresp
  dsimp only at hresp ⊢
  unfold handle_start_game at hout
  rw [hpr] at hout
  dsimp only at hout
  split at hout
  · injection hout with h1 h2; subst h1; subst h2
    injection hresp with h3; subst h3
    simp [lerr] at hsucc
  · split at hout
    · split at hout
      · have hL := (congrArg Prod.snd hout).trans hresp
        have hST := congrArg Prod.fst hout
        obtain ⟨game, latest, vinfo, fp, m, sc, ep, port, hgame, hlatest, hvinfo, hvv,
          hfp, hrv, ⟨rm, hrm, hrmv, hrms⟩, hman, hsc, hep, hspawn⟩ :=
          start_game_launch_success db env pr.1 _ _ r hL hsucc
        rw [hST] at hrm hspawn
        exact ⟨game, latest, vinfo, fp, m, sc, ep, port, hgame, hlatest, hvinfo, hvv,
          hfp, hrv, ⟨rm, hrm, hrmv, hrms⟩, hman, hsc, hep, hspawn⟩
      · injection hout with h1 h2; subst h1; subst h2
        injection hresp with h3; subst h3
        simp [lerr] at hsucc
    · have hL := (congrArg Prod.snd hout).trans hresp
      have hST := congrArg Prod.fst hout
      obtain ⟨game, latest, vinfo, fp, m, sc, ep, port, hgame, hlatest, hvinfo, hvv,
        hfp, hrv, ⟨rm, hrm, hrmv, hrms⟩, hman, hsc, hep, hspawn⟩ :=
        start_game_launch_success db env pr.1 _ _ r hL hsucc
      rw [hST] at hrm hspawn
      exact ⟨game, latest, vinfo, fp, m, sc, ep, port, hgame, hlatest, hvinfo, hvv,
        hfp, hrv, ⟨rm, hrm, hrmv, hrms⟩, hman, hsc, hep, hspawn⟩

/-- Witness for C7: in the stale-room scenario the start succeeds and the
theorem's conclusions hold at those inputs. -/
theorem start_game_version_float_witness :
    ∃ game latest vinfo fp m sc ep port,
      lobby_find_one demoStartDB.game
          [("_id", demoStartRoom.2.game_id), ("status", .s "active")] = some game
      ∧ dictGet? game "latest_version" = some latest
      ∧ lobby_find_one demoStartDB.version
          [("game_id", demoStartRoom.2.game_id), ("version", latest)] = some vinfo
      ∧ dictGet? vinfo "version" = some latest
      ∧ dictGet? vinfo "file_path" = some fp
      ∧ dictGet? (LResp.fields ⟨true,
          [("game_server_host", .s advertise_host), ("game_server_port", .n 5000),
           ("game_name", .s "chat"), ("version", .s "1.1")], []⟩) "version" = some latest
      ∧ (∃ rm, dictGet?
            (handle_start_game demoStartState demoStartDB ⟨true, .s "u1", "alice"⟩
              demoStartEnv).1.rooms demoStartRoom.1 = some rm
            ∧ rm.version = latest ∧ rm.status = "in_game")
      ∧ demoStartEnv.manifest = some m ∧ m.server = some sc ∧ sc.entry_point = some ep
      ∧ (handle_start_game demoStartState demoStartDB ⟨true, .s "u1", "alice"⟩
            demoStartEnv).1.spawns = demoStartState.spawns ++
          [([sc.start_command.getD "python",
             upload_dir ++ "/" ++ renderVal fp ++ "/" ++ ep]
            ++ (sc.arguments.getD []).map (fun a =>
                (a.replace "{PORT}" (toString port)).replace "{NUM_PLAYERS}"
                  (toString demoStartRoom.2.players.length)), port)] :=
  start_game_version_float demoStartState demoStartDB ⟨true, .s "u1", "alice"⟩
    demoStartEnv demoStartRoom
    ⟨true, [("game_server_host", .s advertise_host), ("game_server_port", .n 5000),
      ("game_name", .s "chat"), ("version", .s "1.1")], []⟩
    (by decide) (by decide) rfl

/-! Claim C8: at most one live session per user. -/

theorem dictHas_iff_mem_keys {κ α : Type} [DecidableEq κ] {l : List (κ × α)} {k : κ} :
    dictHas l k = true ↔ k ∈ l.map Prod.fst := by
  induction l with
  | nil => simp [dictHas]
  | cons p t ih =>
    simp only [dictHas, Bool.or_eq_true, decide_eq_true_eq, List.map_cons, List.mem_cons]
    constructor
    · rintro (he | ht)
      · exact Or.inl he.symm
      · exact Or.inr (ih.mp ht)
    · rintro (he | ht)
      · exact Or.inl he.symm
      · exact Or.inr (ih.mpr ht)

theorem dictErase_not_has {κ α : Type} [DecidableEq κ] {l : List (κ × α)} {k : κ}
    (h : (l.map Prod.fst).Nodup) : dictHas (dictErase l k) k = false := by
  induction l with
  | nil => rfl
  | cons p t ih =>
    simp only [List.map_cons, List.nodup_cons] at h
    by_cases hk : p.1 = k
    · simp only [dictErase, if_pos hk]
      cases hht : dictHas t k with
      | false => rfl
      | true =>
        exact absurd (hk ▸ dictHas_iff_mem_keys.mp hht) h.1
    · simp only [dictErase, if_neg hk]
      simp [dictHas, hk, ih h.2]

theorem start_game_launch_sessions (db : DBState) (env : StartEnv) (rid : String)
    (st1 : LobbyState) (room1 : Room) :
    (start_game_launch db env rid st1 room1).1.sessions = st1.sessions := by
  unfold start_game_launch
  dsimp only
  repeat' split
  all_goals rfl

theorem handle_start_game_sessions (st : LobbyState) (db : DBState) (sess : ConnSession)
    (env : StartEnv) : (handle_start_game st db sess env).1.sessions = st.sessions := by
  unfold handle_start_game
  dsimp only
  repeat' split
  all_goals first
    | rfl
    | (rw [start_game_launch_sessions])

theorem handle_create_room_sessions (st : LobbyState) (db : DBState) (sess : ConnSession)
    (g rid : String) : (handle_create_room st db sess g rid).1.sessions = st.sessions := by
  unfold handle_create_room
  dsimp only
  repeat' split
  all_goals rfl

theorem handle_join_room_sessions (st : LobbyState) (sess : ConnSession) (rid : String) :
    (handle_join_room st sess rid).1.sessions = st.sessions := by
  unfold handle_join_room
  dsimp only
  repeat' split
  all_goals rfl

theorem handle_leave_room_sessions (st : LobbyState) (sess : ConnSession) (pe : Bool) :
    (handle_leave_room st sess pe).1.sessions = st.sessions := by
  unfold handle_leave_room
  dsimp only
  repeat' split
  all_goals rfl

theorem handle_check_game_status_sessions (st : LobbyState) (sess : ConnSession)
    (pe : Bool) : (handle_check_game_status st sess pe).1.sessions = st.sessions := by
  unfold handle_check_game_status
  dsimp only
  repeat' split
  all_goals rfl

theorem handle_end_game_sessions (st : LobbyState) (sess : ConnSession) :
    (handle_end_game st sess).1.sessions = st.sessions := by
  unfold handle_end_game
  dsimp only
  repeat' split
  all_goals rfl

theorem dictSet_keys_nodup {κ α : Type} [DecidableEq κ] {l : List (κ × α)} (k : κ) (v : α)
    (h : (l.map Prod.fst).Nodup) : ((dictSet l k v).map Prod.fst).Nodup := by
  cases hhas : dictHas l k with
  | true =>
    rw [dictSet_keys_of_has v hhas]
    exact h
  | false =>
    rw [dictSet_append_of_not_has v hhas]
    simp only [List.map_append, List.map_cons, List.map_nil]
    refine List.Nodup.append h (by simp) ?_
    intro x hx hx'
    simp only [List.mem_cons, List.not_mem_nil, or_false] at hx'
    exact (not_has_of_dictHas_false hhas) (hx' ▸ hx)

theorem handle_login_sessions_nodup (st : LobbyState) (db : DBState) (sess : ConnSession)
    (hash : String → String) (u p : String)
    (h : (st.sessions.map Prod.fst).Nodup) :
    ((handle_login st db sess hash u p).1.sessions.map Prod.fst).Nodup := by
  unfold handle_login
  repeat' split
  all_goals first
    | exact h
    | exact dictSet_keys_nodup _ _ h

/-- C8: at most one live session per user.  (a) every operation preserves
uniqueness of session keys; (b) a login whose credentials resolve to a
user_id that already has a live session is refused with the Lobby state, the
Catalog and the connection session unchanged; (c) the session table changes
only when the credential check and the no-existing-session check both passed,
and then by exactly the one insertion; (d) on logout or disconnect the
caller's session is removed and the caller is removed from every room. -/
theorem single_session_per_user :
    (∀ (st : LobbyState) (db : DBState) (sess : ConnSession) (hash : String → String)
       (op : LobbyOp), (st.sessions.map Prod.fst).Nodup →
       (((applyOp st db sess hash op).st.sessions.map Prod.fst)).Nodup)
    ∧ (∀ (st : LobbyState) (db : DBState) (sess : ConnSession) (hash : String → String)
       (u p : String) (user : Doc) (uid : UserId),
       u ≠ "" → p ≠ "" →
       lobby_find_one db.user [("username", .s u), ("account_type", .s "player")]
         = some user →
       dictGet? user "password_hash" = some (.s (hash p)) →
       dictGet? user "_id" = some uid →
       dictHas st.sessions uid = true →
       applyOp st db sess hash (.login u p)
         = ⟨st, db, sess, some (lerr "Account already logged in")⟩)
    ∧ (∀ (st : LobbyState) (db : DBState) (sess : ConnSession) (hash : String → String)
       (u p : String),
       (applyOp st db sess hash (.login u p)).st.sessions ≠ st.sessions →
       ∃ user uid uname,
         lobby_find_one db.user [("username", .s u), ("account_type", .s "player")]
           = some user
         ∧ dictGet? user "password_hash" = some (.s (hash p))
         ∧ dictGet? user "_id" = some uid
         ∧ dictHas st.sessions uid = false
         ∧ dictGet? user "username" = some (.s uname)
         ∧ (applyOp st db sess hash (.login u p)).st.sessions
             = dictSet st.sessions uid u)
    ∧ (∀ (st : LobbyState) (db : DBState) (sess : ConnSession) (hash : String → String)
       (op : LobbyOp), sess.logged_in = true → lobbyWF st →
       (st.sessions.map Prod.fst).Nodup →
       (op = .logout ∨ op = .disconnect) →
       dictHas (applyOp st db sess hash op).st.sessions sess.user_id = false
       ∧ ∀ pr ∈ (applyOp st db sess hash op).st.rooms, sess.user_id ∉ pr.2.players) := by
  refine ⟨?_, ?_, ?_, ?_⟩
  · intro st db sess hash op h
    cases op with
    | login u p =>
      simp only [applyOp]
      exact handle_login_sessions_nodup st db sess hash u p h
    | logout =>
      simp only [applyOp]
      split
      · exact List.Sublist.nodup
          (List.Sublist.map _ (dictErase_sublist st.sessions sess.user_id)) h
      · exact h
    | disconnect =>
      simp only [applyOp]
      split
      · exact List.Sublist.nodup
          (List.Sublist.map _ (dictErase_sublist st.sessions sess.user_id)) h
      · exact h
    | list_games => simp only [applyOp]; split <;> exact h
    | game_info g => simp only [applyOp]; split <;> exact h
    | download_game g fsE => simp only [applyOp]; split <;> exact h
    | list_rooms => simp only [applyOp]; split <;> exact h
    | create_room g rid =>
      simp only [applyOp]
      split
      · show (((handle_create_room st db sess g rid).1.sessions.map Prod.fst)).Nodup
        rw [handle_create_room_sessions]
        exact h
      · exact h
    | join_room rid =>
      simp only [applyOp]
      split
      · show (((handle_join_room st sess rid).1.sessions.map Prod.fst)).Nodup
        rw [handle_join_room_sessions]
        exact h
      · exact h
    | leave_room pe =>
      simp only [applyOp]
      split
      · show (((handle_leave_room st sess pe).1.sessions.map Prod.fst)).Nodup
        rw [handle_leave_room_sessions]
        exact h
      · exact h
    | start_game env =>
      simp only [applyOp]
      split
      · show (((handle_start_game st db sess env).1.sessions.map Prod.fst)).Nodup
        rw [handle_start_game_sessions]
        exact h
      · exact h
    | check_game_status pe =>
      simp only [applyOp]
      split
      · show (((handle_check_game_status st sess pe).1.sessions.map Prod.fst)).Nodup
        rw [handle_check_game_status_sessions]
        exact h
      · exact h
    | end_game =>
      simp only [applyOp]
      split
      · show (((handle_end_game st sess).1.sessions.map Prod.fst)).Nodup
        rw [handle_end_game_sessions]
        exact h
      · exact h
    | submit_review g rt cm fr nw => simp only [applyOp]; split <;> exact h
  · intro st db sess hash u p user uid hu hp hfind hpw hid hhas
    have hr : handle_login st db sess hash u p
        = (st, sess, some (lerr "Account already logged in")) := by
      unfold handle_login
      rw [if_neg (by simp [hu, hp]), hfind]
      try dsimp only
      rw [hpw]
      try dsimp only
      rw [if_neg (by simp), hid]
      try dsimp only
      rw [if_pos hhas]
    simp only [applyOp, hr]
  · intro st db sess hash u p hne
    simp only [applyOp] at hne ⊢
    unfold handle_login at hne ⊢
    try dsimp only at hne ⊢
    split at hne
    · exact absurd rfl hne
    · split at hne
      · exact absurd rfl hne
      · next user hfind =>
        split at hne
        · exact absurd rfl hne
        · next ph hph =>
          split at hne
          · exact absurd rfl hne
          · next hpw =>
            split at hne
            · exact absurd rfl hne
            · next uid hid =>
              split at hne
              · exact absurd rfl hne
              · next hhas =>
                split at hne
                · next uname huname =>
                  refine ⟨user, uid, uname, hfind, ?_, hid, ?_, huname, ?_⟩
                  · rw [hph]
                    exact congrArg some (not_not.mp hpw)
                  · cases hb : dictHas st.sessions uid with
                    | false => rfl
                    | true => exact absurd hb hhas
                  · rw [if_neg (show ¬(u = "" ∨ p = "") from by assumption),
                      if_neg hpw, if_neg hhas]
                · exact absurd rfl hne
  · intro st db sess hash op hlog hwf hnodup hops
    have hcleanup :
        dictHas (cleanup_session st sess.user_id).sessions sess.user_id = false
        ∧ ∀ pr ∈ (cleanup_session st sess.user_id).rooms, sess.user_id ∉ pr.2.players := by
      constructor
      · show dictHas (dictErase st.sessions sess.user_id) sess.user_id = false
        exact dictErase_not_has hnodup
      · exact (cleanup_session_wf st sess.user_id hwf).2
    rcases hops with hop | hop <;> subst hop <;> simp only [applyOp, hlog, if_true] <;>
      exact hcleanup

/-- Witness for C8 at a concrete state: a second login for the already
logged-in user "alice" is refused with nothing changed, and logout removes
her session. -/
theorem single_session_per_user_witness :
    applyOp ⟨[(.s "u1", "alice")], [], 5000, [], []⟩
        ⟨[(.s "u1", [("_id", .s "u1"), ("username", .s "alice"),
           ("account_type", .s "player"), ("password_hash", .s "pw")])], [], [], [], []⟩
        ⟨false, .nil, ""⟩ (fun s => s) (.login "alice" "pw")
      = ⟨⟨[(.s "u1", "alice")], [], 5000, [], []⟩,
         ⟨[(.s "u1", [("_id", .s "u1"), ("username", .s "alice"),
            ("account_type", .s "player"), ("password_hash", .s "pw")])], [], [], [], []⟩,
         ⟨false, .nil, ""⟩, some (lerr "Account already logged in")⟩
    ∧ dictHas (applyOp ⟨[(.s "u1", "alice")], [], 5000, [], []⟩ DBState.empty
        ⟨true, .s "u1", "alice"⟩ (fun s => s) .logout).st.sessions (.s "u1") = false :=
  ⟨single_session_per_user.2.1 ⟨[(.s "u1", "alice")], [], 5000, [], []⟩
      ⟨[(.s "u1", [("_id", .s "u1"), ("username", .s "alice"),
         ("account_type", .s "player"), ("password_hash", .s "pw")])], [], [], [], []⟩
      ⟨false, .nil, ""⟩ (fun s => s) "alice" "pw"
      [("_id", .s "u1"), ("username", .s "alice"),
       ("account_type", .s "player"), ("password_hash", .s "pw")]
      (.s "u1") (by decide) (by decide) (by decide) (by decide) (by decide) (by decide),
   (single_session_per_user.2.2.2 ⟨[(.s "u1", "alice")], [], 5000, [], []⟩ DBState.empty
      ⟨true, .s "u1", "alice"⟩ (fun s => s) .logout rfl (by decide) (by decide)
      (Or.inl rfl)).1⟩

/-! Claim C10: submit_review ignores the game's removed status. -/

theorem lobby_find_one_none_of_all {c : Collection} {q : Doc}
    (h : ∀ p ∈ c, match_query p.2 q = false) : lobby_find_one c q = none := by
  unfold lobby_find_one handle_find_one
  have hn : c.find? (fun p => match_query p.2 q) = none :=
    List.find?_eq_none.mpr (fun x hx => by simp [h x hx])
  rw [hn]

theorem find_one_review_after_insert (rcoll : Collection) (fresh now comment uname : String)
    (gid pid : DBVal) (rt : Int) :
    (handle_find_one
      (dictSet rcoll (DBVal.s fresh)
        (dictSet (dictSet
          [("game_id", gid), ("player_id", pid), ("player_name", DBVal.s uname),
           ("rating", DBVal.n rt), ("comment", DBVal.s comment)]
          "_id" (DBVal.s fresh)) "created_at" (DBVal.s now)))
      [("game_id", gid), ("player_id", pid), ("rating", DBVal.n rt)]).success = true := by
  apply handle_find_one_success_of_mem _ (mem_dictSet_self _ _ _)
  have h1 : dictGet? (dictSet (dictSet
      [("game_id", gid), ("player_id", pid), ("player_name", DBVal.s uname),
       ("rating", DBVal.n rt), ("comment", DBVal.s comment)]
      "_id" (DBVal.s fresh)) "created_at" (DBVal.s now)) "game_id" = some gid := by
    rw [dictGet?_dictSet_of_ne _ _ _ _ (by decide), dictGet?_dictSet_of_ne _ _ _ _ (by decide)]
    rfl
  have h2 : dictGet? (dictSet (dictSet
      [("game_id", gid), ("player_id", pid), ("player_name", DBVal.s uname),
       ("rating", DBVal.n rt), ("comment", DBVal.s comment)]
      "_id" (DBVal.s fresh)) "created_at" (DBVal.s now)) "player_id" = some pid := by
    rw [dictGet?_dictSet_of_ne _ _ _ _ (by decide), dictGet?_dictSet_of_ne _ _ _ _ (by decide)]
    rfl
  have h3 : dictGet? (dictSet (dictSet
      [("game_id", gid), ("player_id", pid), ("player_name", DBVal.s uname),
       ("rating", DBVal.n rt), ("comment", DBVal.s comment)]
      "_id" (DBVal.s fresh)) "created_at" (DBVal.s now)) "rating" = some (DBVal.n rt) := by
    rw [dictGet?_dictSet_of_ne _ _ _ _ (by decide), dictGet?_dictSet_of_ne _ _ _ _ (by decide)]
    rfl
  simp only [match_query, List.all_cons, List.all_nil, Bool.and_true, h1, h2, h3]
  simp

/-- C10: `submit_review` looks the Game up by name with no status filter, so
when every Game document named G is `removed`, a logged-in player's
`submit_review` with an integer rating in [1..5] succeeds and inserts a
Review, while `game_info`, `download_game`, and `create_room` fail with
"Game not found" for the same game, and `list_games` does not list it. -/
theorem submit_review_ignores_removed_status
    (st : LobbyState) (db : DBState) (sess : ConnSession) (hash : String → String)
    (G comment fresh now rid : String) (fsE : Bool) (rt : Int) (g : Doc) (gid : DBVal)
    (hlog : sess.logged_in = true)
    (hG : ¬(G = ""))
    (hfind : lobby_find_one db.game [("name", .s G)] = some g)
    (_hrem : dictGet? g "status" = some (.s "removed"))
    (hgid : dictGet? g "_id" = some gid)
    (hnoactive : ∀ p ∈ db.game,
      match_query p.2 [("name", .s G), ("status", .s "active")] = false)
    (hr1 : 1 ≤ rt) (hr5 : rt ≤ 5) :
    (applyOp st db sess hash (.submit_review G (some rt) comment fresh now)).resp
      = some ⟨true, [("message", .s "Review submitted")], []⟩
    ∧ (handle_find_one
        (applyOp st db sess hash (.submit_review G (some rt) comment fresh now)).db.review
        [("game_id", gid), ("player_id", sess.user_id), ("rating", .n rt)]).success = true
    ∧ (applyOp st db sess hash (.game_info G)).resp = some (lerr "Game not found")
    ∧ (applyOp st db sess hash (.download_game G fsE)).resp = some (lerr "Game not found")
    ∧ (applyOp st db sess hash (.create_room G rid)).resp = some (lerr "Game not found")
    ∧ ∀ d ∈ (handle_list_games db).docs, dictGet? d "name" ≠ some (.s G) := by
  have hnone : lobby_find_one db.game [("name", .s G), ("status", .s "active")] = none :=
    lobby_find_one_none_of_all hnoactive
  have hsub : handle_submit_review db sess G (some rt) comment fresh now
      = ((process_request db ⟨"insert", "Review",
          ⟨[], [], [("game_id", gid), ("player_id", sess.user_id),
            ("player_name", .s sess.username), ("rating", .n rt),
            ("comment", .s comment)]⟩⟩ fresh now).1,
         some ⟨true, [("message", .s "Review submitted")], []⟩) := by
    unfold handle_submit_review
    rw [if_neg (by simp [hG])]
    try dsimp only
    rw [if_neg (by simp [hr1, hr5])]
    rw [hfind]
    try dsimp only
    rw [hgid]
  refine ⟨?_, ?_, ?_, ?_, ?_, ?_⟩
  · simp only [applyOp, hlog, if_true, hsub]
  · simp only [applyOp, hlog, if_true, hsub]
    exact find_one_review_after_insert db.review fresh now comment sess.username
      gid sess.user_id rt
  · simp only [applyOp, hlog, if_true]
    unfold handle_game_info
    rw [if_neg hG, hnone]
  · simp only [applyOp, hlog, if_true]
    unfold handle_download_game
    rw [if_neg hG, hnone]
  · simp only [applyOp, hlog, if_true]
    unfold handle_create_room
    rw [if_neg hG]
    try dsimp only
    rw [hnone]
  · intro d hd
    unfold handle_list_games handle_find at hd
    simp only [List.mem_map, List.mem_filter] at hd
    obtain ⟨p, ⟨hp, hpred⟩, hdp⟩ := hd
    subst hdp
    intro hname
    have hcontra := hnoactive p hp
    simp only [match_query, List.all_cons, List.all_nil, Bool.and_true] at hpred hcontra
    rw [hname] at hcontra
    simp at hcontra
    exact absurd hpred (by simpa using hcontra)

/-- Witness for C10: a concrete Catalog whose only game "chat" is removed. -/
theorem submit_review_ignores_removed_status_witness :
    (applyOp ⟨[(.s "u1", "alice")], [], 5000, [], []⟩
        ⟨[], [(.s "g1", [("_id", .s "g1"), ("name", .s "chat"),
          ("status", .s "removed"), ("latest_version", .s "1.0"),
          ("max_players", .n 2)])], [], [], []⟩
        ⟨true, .s "u1", "alice"⟩ (fun s => s)
        (.submit_review "chat" (some 4) "fun" "rv1" "T")).resp
      = some ⟨true, [("message", .s "Review submitted")], []⟩
    ∧ (applyOp ⟨[(.s "u1", "alice")], [], 5000, [], []⟩
        ⟨[], [(.s "g1", [("_id", .s "g1"), ("name", .s "chat"),
          ("status", .s "removed"), ("latest_version", .s "1.0"),
          ("max_players", .n 2)])], [], [], []⟩
        ⟨true, .s "u1", "alice"⟩ (fun s => s) (.game_info "chat")).resp
      = some (lerr "Game not found") :=
  ⟨(submit_review_ignores_removed_status
      ⟨[(.s "u1", "alice")], [], 5000, [], []⟩
      ⟨[], [(.s "g1", [("_id", .s "g1"), ("name", .s "chat"),
        ("status", .s "removed"), ("latest_version", .s "1.0"),
        ("max_players", .n 2)])], [], [], []⟩
      ⟨true, .s "u1", "alice"⟩ (fun s => s) "chat" "fun" "rv1" "T" "rr" false 4
      [("_id", .s "g1"), ("name", .s "chat"), ("status", .s "removed"),
       ("latest_version", .s "1.0"), ("max_players", .n 2)] (.s "g1")
      rfl (by decide) (by decide) (by decide) (by decide) (by decide)
      (by decide) (by decide)).1,
   (submit_review_ignores_removed_status
      ⟨[(.s "u1", "alice")], [], 5000, [], []⟩
      ⟨[], [(.s "g1", [("_id", .s "g1"), ("name", .s "chat"),
        ("status", .s "removed"), ("latest_version", .s "1.0"),
        ("max_players", .n 2)])], [], [], []⟩
      ⟨true, .s "u1", "alice"⟩ (fun s => s) "chat" "fun" "rv1" "T" "rr" false 4
      [("_id", .s "g1"), ("name", .s "chat"), ("status", .s "removed"),
       ("latest_version", .s "1.0"), ("max_players", .n 2)] (.s "g1")
      rfl (by decide) (by decide) (by decide) (by decide) (by decide)
      (by decide) (by decide)).2.2.1⟩

end GamePlatform
